import Mathlib

/-!
Shallow embedding of the carCrawler repository (src/main.py, src/main_old.py,
src/car_crawler.py) for checking its natural-language specification.

Python runtime values that occur after `json.loads` are modelled by `PyVal`;
operations that can raise in Python return `Except PyErr`.  Python `float`
values are modelled by `Rat` (all numerals appearing in the program and in the
claims are exactly representable, and no claim depends on IEEE rounding).
-/

set_option maxRecDepth 4096

namespace CarCrawler

/-- A Python value as produced by `json.loads` (plus values the pipeline builds). -/
inductive PyVal where
  | none
  | bool (b : Bool)
  | int (n : Int)
  | float (q : Rat)
  | str (s : String)
  | list (xs : List PyVal)
  | dict (kvs : List (String × PyVal))

/-- Python truthiness (`bool(v)`). -/
def PyVal.truthy : PyVal → Bool
  | .none => false
  | .bool b => b
  | .int n => n != 0
  | .float q => q != 0
  | .str s => !s.isEmpty
  | .list xs => !xs.isEmpty
  | .dict kvs => !kvs.isEmpty

def PyVal.isDict : PyVal → Bool
  | .dict _ => true
  | _ => false

def PyVal.isList : PyVal → Bool
  | .list _ => true
  | _ => false

def PyVal.isStr : PyVal → Bool
  | .str _ => true
  | _ => false

def PyVal.isNone : PyVal → Bool
  | .none => true
  | _ => false

/-- Exceptions the embedded code can raise. -/
inductive PyErr where
  | attributeError
  | typeError
  | keyError
  | valueError
  | indexError
  | nameError
  deriving Repr, DecidableEq

abbrev PyM (α : Type) := Except PyErr α

/-- First-match lookup in a Python dict (keys are unique in all parsed dicts). -/
def lookupStr (kvs : List (String × PyVal)) (k : String) : Option PyVal :=
  (kvs.find? (fun p => p.1 == k)).map (·.2)

/-- `v.get(k, d)`: `AttributeError` unless `v` is a dict. -/
def pyGetD (v : PyVal) (k : String) (d : PyVal) : PyM PyVal :=
  match v with
  | .dict kvs => .ok ((lookupStr kvs k).getD d)
  | _ => .error .attributeError

/-- Python `a or b` specialised to the pervasive `x or default` pattern. -/
def pyOr (a b : PyVal) : PyVal := if a.truthy then a else b

/-- `d.items()`: `AttributeError` unless `v` is a dict. -/
def pyItems (v : PyVal) : PyM (List (String × PyVal)) :=
  match v with
  | .dict kvs => .ok kvs
  | _ => .error .attributeError

/-- `len(v)`: `TypeError` for values with no length. -/
def pyLen (v : PyVal) : PyM Int :=
  match v with
  | .str s => .ok s.length
  | .list xs => .ok xs.length
  | .dict kvs => .ok kvs.length
  | _ => .error .typeError

/-- `v[0]` for the shapes that occur (string-keyed dicts make `d[0]` a `KeyError`). -/
def pyIndex0 (v : PyVal) : PyM PyVal :=
  match v with
  | .list [] => .error .indexError
  | .list (x :: _) => .ok x
  | .str s =>
    match s.toList with
    | [] => .error .indexError
    | c :: _ => .ok (.str (String.mk [c]))
  | .dict _ => .error .keyError
  | _ => .error .typeError

/-- Coerce to the underlying string; `TypeError` otherwise (as `re.search`
and `re.sub` raise on non-string arguments). -/
def pyAsStr (v : PyVal) : PyM String :=
  match v with
  | .str s => .ok s
  | _ => .error .typeError

/-- The string payload of a value known to be a string, `""` otherwise. -/
def strOrEmpty (v : PyVal) : String :=
  match v with
  | .str s => s
  | _ => ""

/-! ### Character classes (ASCII, as used by `re` and `str.strip` on these inputs) -/

def pyWs (c : Char) : Bool :=
  c = ' ' || c = '\t' || c = '\n' || c = '\x0d' || c = '\x0b' || c = '\x0c'

def wordChar (c : Char) : Bool :=
  c.isAlpha || c.isDigit || c = '_'

/-- Python `str.strip()`. -/
def pyStrip (s : String) : String :=
  String.mk (((s.toList.dropWhile pyWs).reverse.dropWhile pyWs).reverse)

/-- If `pat` is a prefix of `cs`, the remainder after it. -/
def dropPre : List Char → List Char → Option (List Char)
  | [], cs => some cs
  | _ :: _, [] => Option.none
  | p :: ps, c :: cs => if p = c then dropPre ps cs else Option.none

def pyReplaceAux (pat rep : List Char) : Nat → List Char → List Char
  | 0, cs => cs
  | _ + 1, [] => []
  | fuel + 1, c :: rest =>
    match dropPre pat (c :: rest) with
    | some r => rep ++ pyReplaceAux pat rep fuel r
    | Option.none => c :: pyReplaceAux pat rep fuel rest

/-- Python `str.replace` (all occurrences, left to right, non-overlapping;
only used with non-empty patterns). -/
def pyReplace (s pat rep : String) : String :=
  String.mk (pyReplaceAux pat.toList rep.toList s.toList.length s.toList)

/-! ### Numeric literal parsing: Python `float(str)` and `int(str)` -/

def digitsToNat (ds : List Char) : Nat :=
  ds.foldl (fun a c => a * 10 + (c.toNat - '0'.toNat)) 0

/-- `float(s)` on a string: sign, digits with optional decimal point, optional
exponent (`inf`/`nan` literals are not modelled; no input here uses them). -/
def parsePyFloat (s : String) : Option Rat :=
  let cs := (s.toList.dropWhile pyWs).reverse.dropWhile pyWs |>.reverse
  let (sign, cs) :=
    match cs with
    | '-' :: r => ((-1 : Int), r)
    | '+' :: r => ((1 : Int), r)
    | _ => ((1 : Int), cs)
  let (ip, cs) := (cs.takeWhile Char.isDigit, cs.dropWhile Char.isDigit)
  let (fp, cs) :=
    match cs with
    | '.' :: r => (r.takeWhile Char.isDigit, r.dropWhile Char.isDigit)
    | _ => ([], cs)
  if ip.isEmpty && fp.isEmpty then Option.none
  else
    let mant : Int := sign * (digitsToNat (ip ++ fp) : Int)
    -- value = mant * 10 ^ (exp - fp.length), via `mkRat` (kernel-reducible)
    let mk : Int → Rat := fun ex =>
      if ex ≥ 0 then ((mant * 10 ^ ex.toNat : Int) : Rat)
      else mkRat mant (10 ^ (-ex).toNat)
    match cs with
    | [] => some (mk (-(fp.length : Int)))
    | e :: r =>
      if e = 'e' || e = 'E' then
        let (esign, r) :=
          match r with
          | '-' :: r2 => ((-1 : Int), r2)
          | '+' :: r2 => ((1 : Int), r2)
          | _ => ((1 : Int), r)
        let (ed, r) := (r.takeWhile Char.isDigit, r.dropWhile Char.isDigit)
        if ed.isEmpty || !r.isEmpty then Option.none
        else
          let ex : Int := esign * (digitsToNat ed : Int)
          some (mk (ex - (fp.length : Int)))
      else Option.none

/-- `int(s)` on a string: sign and digits only. -/
def parsePyInt (s : String) : Option Int :=
  let cs := (s.toList.dropWhile pyWs).reverse.dropWhile pyWs |>.reverse
  let (sign, cs) :=
    match cs with
    | '-' :: r => ((-1 : Int), r)
    | '+' :: r => ((1 : Int), r)
    | _ => ((1 : Int), cs)
  if cs.isEmpty || !cs.all Char.isDigit then Option.none
  else some (sign * (digitsToNat cs : Int))

/-- Truncation toward zero, as Python `int(float)` (the denominator is
positive, so `Int.div` truncates toward zero). -/
def ratTrunc (q : Rat) : Int :=
  q.num.tdiv q.den

/-- Python `float(v)`: `ValueError` on unparsable strings, `TypeError` on
non-numeric non-string values. -/
def pyFloat (v : PyVal) : PyM PyVal :=
  match v with
  | .bool b => .ok (.float (if b then 1 else 0))
  | .int n => .ok (.float n)
  | .float q => .ok (.float q)
  | .str s =>
    match parsePyFloat s with
    | some q => .ok (.float q)
    | Option.none => .error .valueError
  | _ => .error .typeError

/-- Python `int(v)`. -/
def pyInt (v : PyVal) : PyM PyVal :=
  match v with
  | .bool b => .ok (.int (if b then 1 else 0))
  | .int n => .ok (.int n)
  | .float q => .ok (.int (ratTrunc q))
  | .str s =>
    match parsePyInt s with
    | some n => .ok (.int n)
    | Option.none => .error .valueError
  | _ => .error .typeError

/-! ### The regular-expression operations used by the source

Each pattern of the source is compiled by hand to a deterministic matcher.
For these particular patterns greedy maximal-run matching coincides with
Python's backtracking semantics: every quantified class (`\s`, `\d`) is
disjoint from the literal that follows it, so giving characters back can
never produce a match.  `re.sub`/`re.search` scan match positions left to
right; a matcher takes the suffix starting at the candidate position and
returns the rest of the input after the match (consuming at least one
character whenever it succeeds). -/

def boundaryOk (cs : List Char) : Bool :=
  match cs with
  | [] => true
  | c :: _ => !wordChar c

/-- `\s*\(\d+hk\)` — parenthesized horsepower. -/
def matchParenHk (cs : List Char) : Option (List Char) :=
  match cs.dropWhile pyWs with
  | '(' :: r1 =>
    let ds := r1.takeWhile Char.isDigit
    if ds.isEmpty then Option.none
    else
      match r1.dropWhile Char.isDigit with
      | 'h' :: 'k' :: ')' :: r3 => some r3
      | _ => Option.none
  | _ => Option.none

/-- `\s+\d+hk\b` — standalone horsepower. -/
def matchBareHk (cs : List Char) : Option (List Char) :=
  let (w, r0) := cs.span pyWs
  if w.isEmpty then Option.none
  else
    let (ds, r1) := r0.span Char.isDigit
    if ds.isEmpty then Option.none
    else
      match r1 with
      | 'h' :: 'k' :: r2 => if boundaryOk r2 then some r2 else Option.none
      | _ => Option.none

/-- `\s+\d+(?:[,.]\d+)?\s*kWh\b` with `re.IGNORECASE` — kWh annotation. -/
def matchKwhAnn (cs : List Char) : Option (List Char) :=
  let (w, r0) := cs.span pyWs
  if w.isEmpty then Option.none
  else
    let (ds, r1) := r0.span Char.isDigit
    if ds.isEmpty then Option.none
    else
      let r2 :=
        match r1 with
        | c :: rr =>
          if (c = ',' || c = '.') && !(rr.takeWhile Char.isDigit).isEmpty then
            rr.dropWhile Char.isDigit
          else r1
        | [] => r1
      match r2.dropWhile pyWs with
      | a :: b :: c :: r4 =>
        if a.toLower = 'k' && b.toLower = 'w' && c.toLower = 'h' && boundaryOk r4 then
          some r4
        else Option.none
      | _ => Option.none

/-- `,\s*` — comma plus trailing whitespace. -/
def matchCommaWs (cs : List Char) : Option (List Char) :=
  match cs with
  | ',' :: r => some (r.dropWhile pyWs)
  | _ => Option.none

/-- `re.sub` driver: scan left to right, replace each match, continue after it.
The fuel equals the input length, which suffices because every successful
match consumes at least one character. -/
def subAllAux (m : List Char → Option (List Char)) (repl : List Char) :
    Nat → List Char → List Char
  | 0, cs => cs
  | _ + 1, [] => []
  | fuel + 1, c :: rest =>
    match m (c :: rest) with
    | some r => repl ++ subAllAux m repl fuel r
    | Option.none => c :: subAllAux m repl fuel rest

def subAll (m : List Char → Option (List Char)) (repl : List Char) (s : String) : String :=
  String.mk (subAllAux m repl s.toList.length s.toList)

/-- `clean_model_name` (identical in all three source files). -/
def clean_model_name (model_name : String) : String :=
  if model_name.isEmpty then ""
  else
    let cleaned := subAll matchParenHk [] model_name
    let cleaned := subAll matchBareHk [] cleaned
    let cleaned := subAll matchKwhAnn [] cleaned
    subAll matchCommaWs [' '] (pyStrip cleaned)

/-- `clean_brand_name` (identical in all three source files). -/
def clean_brand_name (brand_name : String) : String :=
  if brand_name.isEmpty then ""
  else subAll matchCommaWs [' '] (pyStrip brand_name)

/-- The static Tesla capacity table of `get_tesla_battery_capacity`. -/
def tesla_capacities : List (String × Rat) :=
  [("Model 3 Long Range Dual Motor AWD", 82),
   ("Model 3 Performance AWD", 82),
   ("Model 3 Standard Range RWD", 55),
   ("Model S 100D", 100),
   ("Model S 60", 60),
   ("Model S 75D", 75),
   ("Model S 85D", 85),
   ("Model S 90D", 90),
   ("Model S P100D", 100),
   ("Model S P85", 85),
   ("Model X LR AWD", 100),
   ("Model Y Long Range Dual Motor AWD", 75),
   ("Model Y Performance Dual Motor AWD", 75)]

/-- `get_tesla_battery_capacity` (identical in all three source files). -/
def get_tesla_battery_capacity (model_name_short : String) : Option Rat :=
  let cleaned_name := pyStrip (pyReplace model_name_short "Tesla " "")
  ((tesla_capacities.find? (fun p => p.1 == cleaned_name)).map (·.2))

/-- One candidate position of `(?:\((\d+)hk\)|(\d+)hk)`: the captured digits. -/
def hkHere (cs : List Char) : Option (List Char) :=
  match cs with
  | '(' :: r1 =>
    let ds := r1.takeWhile Char.isDigit
    if ds.isEmpty then Option.none
    else
      match r1.dropWhile Char.isDigit with
      | 'h' :: 'k' :: ')' :: _ => some ds
      | _ => Option.none
  | c :: _ =>
    if c.isDigit then
      let ds := cs.takeWhile Char.isDigit
      match cs.dropWhile Char.isDigit with
      | 'h' :: 'k' :: _ => some ds
      | _ => Option.none
    else Option.none
  | [] => Option.none

def searchHkAux : List Char → Option (List Char)
  | [] => Option.none
  | c :: rest =>
    match hkHere (c :: rest) with
    | some ds => some ds
    | Option.none => searchHkAux rest

/-- `re.search(r'(?:\((\d+)hk\)|(\d+)hk)', s)`, returning the digit group. -/
def searchHkNum (s : String) : Option String :=
  (searchHkAux s.toList).map String.mk

/-- `extract_engine_power_from_model_name` (identical in all three source
files) on a string argument. -/
def extract_engine_power_from_model_name (model_name : String) : Option Int :=
  if model_name.isEmpty then Option.none
  else
    match searchHkNum model_name with
    | some hk => parsePyInt hk
    | Option.none => Option.none

/-- One candidate position of `(\d+(?:[,.]\d+)?)\s*kWh` with `re.IGNORECASE`
(the battery-capacity pattern of `extract_fields`, no word boundary):
returns the captured group. -/
def kwhCapHere (cs : List Char) : Option (List Char) :=
  let (ds, r1) := cs.span Char.isDigit
  if ds.isEmpty then Option.none
  else
    let (g, r2) :=
      match r1 with
      | c :: rr =>
        if (c = ',' || c = '.') && !(rr.takeWhile Char.isDigit).isEmpty then
          (ds ++ c :: rr.takeWhile Char.isDigit, rr.dropWhile Char.isDigit)
        else (ds, r1)
      | [] => (ds, r1)
    match r2.dropWhile pyWs with
    | a :: b :: c :: _ =>
      if a.toLower = 'k' && b.toLower = 'w' && c.toLower = 'h' then some g
      else Option.none
    | _ => Option.none

def searchKwhCapAux : List Char → Option (List Char)
  | [] => Option.none
  | c :: rest =>
    match kwhCapHere (c :: rest) with
    | some g => some g
    | Option.none => searchKwhCapAux rest

/-- `re.search(r'(\d+(?:[,.]\d+)?)\s*kWh', s, re.IGNORECASE)`, group 1. -/
def searchKwhCap (s : String) : Option String :=
  (searchKwhCapAux s.toList).map String.mk

/-- `re.search(r'-(\d+)$', url)`, group 1: the last `-` followed only by
digits up to the end of the string. -/
def searchTrailingNum (s : String) : Option String :=
  let rcs := s.toList.reverse
  let ds := rcs.takeWhile Char.isDigit
  if ds.isEmpty then Option.none
  else
    match rcs.dropWhile Char.isDigit with
    | '-' :: _ => some (String.mk ds.reverse)
    | _ => Option.none

/-! ### `extract_fields`

The three source variants share all of their field computations except:
  * `main.py` reads `body` from `properties`, `main_old.py` from the base
    object (the only difference between those two files);
  * `car_crawler.py` does not initialise `engine_power_hp` / `engine_power`
    before the fuels branch, prefixes the brand to the presentation name and
    emits five extra search fields (and omits `objectViewJson` /
    `base_object_type`).
`coreMain` computes every intermediate value of the shared `main.py` /
`main_old.py` code in source order (it computes both `body` readings, each a
total lookup on a dict that the source reads at exactly that point); the two
`buildData` functions assemble each file's literal dict. -/

def orNone (v : PyVal) : PyVal := pyOr v .none

def getOrDict (v : PyVal) (k : String) : PyM PyVal := do
  let w ← pyGetD v k (.dict [])
  pure (pyOr w (.dict []))

def getOrList (v : PyVal) (k : String) : PyM PyVal := do
  let w ← pyGetD v k (.list [])
  pure (pyOr w (.list []))

/-- `try: ... except (ValueError, TypeError): None` around a conversion. -/
def catchToNone (x : PyM PyVal) : PyVal :=
  match x with
  | .ok v => v
  | .error _ => .none

/-- Python `v == "lit"` for a string literal (only strings compare equal). -/
def pyEqStr (v : PyVal) (s : String) : Bool :=
  match v with
  | .str t => t == s
  | _ => false

/-- The battery-capacity-from-model-name block of `extract_fields`
(regex search, decimal comma to dot, `float(...)`; `TypeError` on a truthy
non-string model name, as `re.search` raises). -/
def regexBatteryVal (model_name : PyVal) : PyM PyVal :=
  if model_name.truthy then do
    let s ← pyAsStr model_name
    pure (match searchKwhCap s with
          | some g =>
            (match parsePyFloat (pyReplace g "," ".") with
             | some q => PyVal.float q
             | Option.none => PyVal.none)
          | Option.none => PyVal.none)
  else pure PyVal.none

/-- The Tesla-fallback conditional of `extract_fields`: replace a missing
battery capacity by the table lookup when the brand is exactly `"Tesla"` and
the cleaned model name is non-empty. -/
def teslaAdjust (battery brand : PyVal) (model_name_with_brand : String) : PyVal :=
  if battery.isNone && pyEqStr brand "Tesla" && !model_name_with_brand.isEmpty then
    match get_tesla_battery_capacity model_name_with_brand with
    | some q => PyVal.float q
    | Option.none => PyVal.none
  else battery

/-- All values bound by one iteration of the `extract_fields` loop body that
feed the result dict (shared between `main.py` and `main_old.py`). -/
structure Fields where
  auctionId : PyVal
  closedAt : PyVal
  publishedAt : PyVal
  soldFor : PyVal
  sellMethod : PyVal
  slug : PyVal
  auctionUrl : PyVal
  buyNowAmount : PyVal
  buyNowAvailable : PyVal
  preliminaryPrice : PyVal
  isSoldByBuyNow : PyVal
  winningBid : PyVal
  reservationPriceReached : PyVal
  highestBid : PyVal
  electricType : PyVal
  odometerReading : PyVal
  bodyFromProperties : PyVal
  bodyFromBaseObject : PyVal
  brand : PyVal
  familyName : PyVal
  registrationPlate : PyVal
  modelName : PyVal
  modelNamePresentation : PyVal
  year : PyVal
  facilityPostCode : PyVal
  facilityCity : PyVal
  fuelCode : PyVal
  batteryCapacity : PyVal
  rangeCityWltpDrive : PyVal
  rangeWltpDrive : PyVal
  enginePowerHp : PyVal
  enginePower : PyVal
  gearbox : PyVal
  baseObjectType : PyVal

def coreMain (item : PyVal) : PyM Fields := do
  let process_object ← getOrDict item "processObject"
  let base_obj ← getOrDict process_object "baseObject"
  let location_info ← getOrDict process_object "locationInfo"
  let facility ← getOrDict location_info "facility"
  let properties ← getOrDict process_object "properties"
  let fuels ← getOrList properties "fuels"
  let active_auction ← getOrDict item "activeAuction"
  let winning_bid ← getOrDict item "winningBid"
  let hb0 ← getOrDict active_auction "highestBid"
  let highest_bid ← pyGetD hb0 "amount" .none
  let auction_url0 ← pyGetD item "auctionUrl" (.str "")
  let auction_url := pyOr auction_url0 (.str "")
  let auction_id ←
    if auction_url.truthy then do
      let u ← pyAsStr auction_url
      pure (match searchTrailingNum u with
            | some d => PyVal.str d
            | Option.none => PyVal.none)
    else pure PyVal.none
  let model_name0 ← pyGetD base_obj "modelName" (.str "")
  let model_name := pyOr model_name0 (.str "")
  let enterFuels ←
    if fuels.truthy then do
      let n ← pyLen fuels
      pure (decide (n > 0))
    else pure false
  let (fuel_code, engine_power_hp, engine_power) ←
    if enterFuels then do
      let f0 ← pyIndex0 fuels
      let fuel_code ← pyGetD f0 "fuelCode" .none
      let b2 ← pyGetD process_object "baseObject" (.dict [])
      let ai0 ← pyGetD b2 "authorityRegisterInformation" (.dict [])
      let authority_info := pyOr ai0 (.dict [])
      let tech_spec ← getOrDict authority_info "generalTechSpecification"
      let tech_fuels ← getOrList tech_spec "fuels"
      let enterTech ←
        if tech_fuels.truthy then do
          let n ← pyLen tech_fuels
          pure (decide (n > 0))
        else pure false
      if enterTech then do
        let tf0 ← pyIndex0 tech_fuels
        let eph ← pyGetD tf0 "enginePowerHp" .none
        let ep ← pyGetD tf0 "enginePower" .none
        pure (fuel_code, eph, ep)
      else do
        let eph ←
          if model_name.truthy then do
            let s ← pyAsStr model_name
            pure (match extract_engine_power_from_model_name s with
                  | some n => PyVal.int n
                  | Option.none => PyVal.none)
          else pure PyVal.none
        pure (fuel_code, eph, PyVal.none)
    else pure (PyVal.none, PyVal.none, PyVal.none)
  let battery_capacity ← regexBatteryVal model_name
  let brand0 ← pyGetD properties "brand" .none
  let brand ←
    if (orNone brand0).truthy then do
      let s ← pyAsStr (orNone brand0)
      pure (PyVal.str (clean_brand_name s))
    else pure PyVal.none
  let model_name_short := clean_model_name (strOrEmpty model_name)
  let model_name_with_brand := model_name_short
  let battery_capacity := teslaAdjust battery_capacity brand model_name_with_brand
  let sold_for0 ← pyGetD item "soldFor" .none
  let sold_for1 := orNone sold_for0
  let sold_for := if sold_for1.truthy then catchToNone (pyFloat sold_for1) else PyVal.none
  let closedAt ← pyGetD item "closedAt" .none
  let publishedAt ← pyGetD item "publishedAt" .none
  let sellMethod ← pyGetD item "sellMethod" .none
  let slug0 ← pyGetD item "slug" (.str "")
  let buyNowAmount ← pyGetD item "buyNowAmount" .none
  let buyNowAvailable0 ← pyGetD item "buyNowAvailable" .none
  let preliminaryPrice ← pyGetD item "preliminaryPrice" .none
  let isSoldByBuyNow0 ← pyGetD item "isSoldByBuyNow" .none
  let winningBidAmount ← pyGetD winning_bid "amount" .none
  let rpr0 ← pyGetD active_auction "reservationPriceReached" .none
  let electricType ← pyGetD properties "electricType" .none
  let odometerReading ← pyGetD properties "odometerReading" .none
  let bodyP ← pyGetD properties "body" .none
  let bodyB ← pyGetD base_obj "body" .none
  let familyName ← pyGetD properties "familyName" .none
  let registrationPlate ← pyGetD base_obj "registrationPlate" .none
  let year ← pyGetD base_obj "year" .none
  let facilityPostCode ← pyGetD facility "postCode" .none
  let facilityCity ← pyGetD facility "city" .none
  let rangeCity ←
    if fuels.truthy then do
      let f0 ← pyIndex0 fuels
      pyGetD f0 "rangeCityWltpDrive" .none
    else pure PyVal.none
  let rangeW ←
    if fuels.truthy then do
      let f0 ← pyIndex0 fuels
      pyGetD f0 "rangeWltpDrive" .none
    else pure PyVal.none
  let gearbox ← pyGetD properties "gearbox" .none
  let baseObjectType ← pyGetD base_obj "baseObjectType" .none
  pure
    { auctionId := auction_id
      closedAt := orNone closedAt
      publishedAt := orNone publishedAt
      soldFor := sold_for
      sellMethod := orNone sellMethod
      slug := pyOr slug0 (.str "")
      auctionUrl := auction_url
      buyNowAmount := orNone buyNowAmount
      buyNowAvailable := .bool buyNowAvailable0.truthy
      preliminaryPrice := orNone preliminaryPrice
      isSoldByBuyNow := .bool isSoldByBuyNow0.truthy
      winningBid := orNone winningBidAmount
      reservationPriceReached := .bool rpr0.truthy
      highestBid := orNone highest_bid
      electricType := orNone electricType
      odometerReading := orNone odometerReading
      bodyFromProperties := orNone bodyP
      bodyFromBaseObject := orNone bodyB
      brand := brand
      familyName := orNone familyName
      registrationPlate := orNone registrationPlate
      modelName := model_name
      modelNamePresentation := .str model_name_with_brand
      year := orNone year
      facilityPostCode := orNone facilityPostCode
      facilityCity := orNone facilityCity
      fuelCode := fuel_code
      batteryCapacity := battery_capacity
      rangeCityWltpDrive := rangeCity
      rangeWltpDrive := rangeW
      enginePowerHp := engine_power_hp
      enginePower := engine_power
      gearbox := orNone gearbox
      baseObjectType := orNone baseObjectType }

/-- The result dict of `main.py:extract_fields` (body from `properties`). -/
def buildDataMainPy (c : Fields) (objectViewJson : PyVal) : List (String × PyVal) :=
  [("auctionId", c.auctionId), ("closedAt", c.closedAt), ("publishedAt", c.publishedAt),
   ("soldFor", c.soldFor), ("sellMethod", c.sellMethod), ("slug", c.slug),
   ("auctionUrl", c.auctionUrl), ("buyNowAmount", c.buyNowAmount),
   ("buyNowAvailable", c.buyNowAvailable), ("preliminaryPrice", c.preliminaryPrice),
   ("isSoldByBuyNow", c.isSoldByBuyNow), ("winningBid", c.winningBid),
   ("reservationPriceReached", c.reservationPriceReached), ("highestBid", c.highestBid),
   ("electricType", c.electricType), ("odometerReading", c.odometerReading),
   ("body", c.bodyFromProperties), ("brand", c.brand), ("familyName", c.familyName),
   ("registrationPlate", c.registrationPlate), ("modelName", c.modelName),
   ("modelNamePresentation", c.modelNamePresentation), ("year", c.year),
   ("facilityPostCode", c.facilityPostCode), ("facilityCity", c.facilityCity),
   ("fuelCode", c.fuelCode), ("batteryCapacity", c.batteryCapacity),
   ("rangeCityWltpDrive", c.rangeCityWltpDrive), ("rangeWltpDrive", c.rangeWltpDrive),
   ("enginePowerHp", c.enginePowerHp), ("enginePower", c.enginePower),
   ("gearbox", c.gearbox), ("objectViewJson", objectViewJson),
   ("base_object_type", c.baseObjectType)]

/-- The result dict of `main_old.py:extract_fields` (body from the base object). -/
def buildDataMainOld (c : Fields) (objectViewJson : PyVal) : List (String × PyVal) :=
  [("auctionId", c.auctionId), ("closedAt", c.closedAt), ("publishedAt", c.publishedAt),
   ("soldFor", c.soldFor), ("sellMethod", c.sellMethod), ("slug", c.slug),
   ("auctionUrl", c.auctionUrl), ("buyNowAmount", c.buyNowAmount),
   ("buyNowAvailable", c.buyNowAvailable), ("preliminaryPrice", c.preliminaryPrice),
   ("isSoldByBuyNow", c.isSoldByBuyNow), ("winningBid", c.winningBid),
   ("reservationPriceReached", c.reservationPriceReached), ("highestBid", c.highestBid),
   ("electricType", c.electricType), ("odometerReading", c.odometerReading),
   ("body", c.bodyFromBaseObject), ("brand", c.brand), ("familyName", c.familyName),
   ("registrationPlate", c.registrationPlate), ("modelName", c.modelName),
   ("modelNamePresentation", c.modelNamePresentation), ("year", c.year),
   ("facilityPostCode", c.facilityPostCode), ("facilityCity", c.facilityCity),
   ("fuelCode", c.fuelCode), ("batteryCapacity", c.batteryCapacity),
   ("rangeCityWltpDrive", c.rangeCityWltpDrive), ("rangeWltpDrive", c.rangeWltpDrive),
   ("enginePowerHp", c.enginePowerHp), ("enginePower", c.enginePower),
   ("gearbox", c.gearbox), ("objectViewJson", objectViewJson),
   ("base_object_type", c.baseObjectType)]

/-- The `for key, item in ...: if not item: continue; ...; break` loop of
`extract_fields`: `data` stays `{}` past falsy items, the first truthy item
is processed and the loop breaks. -/
def extractLoop (build : Fields → PyVal → List (String × PyVal)) (store : PyVal) :
    List (String × PyVal) → PyM (List (String × PyVal))
  | [] => pure []
  | (_, item) :: rest =>
    if item.truthy then do
      let c ← coreMain item
      let ovj ← pyGetD store "objectView" (.dict [])
      pure (build c ovj)
    else extractLoop build store rest

namespace MainPy

/-- `main.py:extract_fields`. -/
def extract_fields (store : PyVal) : PyM (List (String × PyVal)) := do
  let ov ← pyGetD store "objectView" (.dict [])
  let so ← pyGetD ov "storeObjects" (.dict [])
  let entries ← pyItems so
  extractLoop buildDataMainPy store entries

end MainPy

namespace MainOld

/-- `main_old.py:extract_fields`. -/
def extract_fields (store : PyVal) : PyM (List (String × PyVal)) := do
  let ov ← pyGetD store "objectView" (.dict [])
  let so ← pyGetD ov "storeObjects" (.dict [])
  let entries ← pyItems so
  extractLoop buildDataMainOld store entries

end MainOld

/-- Loop-body values of `car_crawler.py:extract_fields`.  `engine_power_hp`
and `engine_power` are only assigned inside the `if fuels and len(fuels) > 0`
branch in that file (there is no initialisation before it), so they are
modelled as `Option PyVal`, `Option.none` meaning "unbound"; reading them
unbound raises `UnboundLocalError` (modelled as `PyErr.nameError`). -/
structure FieldsCC where
  auctionId : PyVal
  closedAt : PyVal
  publishedAt : PyVal
  soldFor : PyVal
  sellMethod : PyVal
  slug : PyVal
  auctionUrl : PyVal
  buyNowAmount : PyVal
  buyNowAvailable : PyVal
  preliminaryPrice : PyVal
  isSoldByBuyNow : PyVal
  winningBid : PyVal
  reservationPriceReached : PyVal
  highestBid : PyVal
  electricType : PyVal
  odometerReading : PyVal
  body : PyVal
  brand : PyVal
  brandElectricSearch : PyVal
  brandFossilSearch : PyVal
  familyName : PyVal
  registrationPlate : PyVal
  modelName : PyVal
  modelNamePresentation : PyVal
  modelNameSearch : PyVal
  modelNameElectricSearch : PyVal
  modelNameFossilSearch : PyVal
  year : PyVal
  facilityPostCode : PyVal
  facilityCity : PyVal
  fuelCode : PyVal
  batteryCapacity : PyVal
  rangeCityWltpDrive : PyVal
  rangeWltpDrive : PyVal
  enginePowerHpOpt : Option PyVal
  enginePowerOpt : Option PyVal
  gearbox : PyVal

def coreCC (item : PyVal) : PyM FieldsCC := do
  let process_object ← getOrDict item "processObject"
  let base_obj ← getOrDict process_object "baseObject"
  let location_info ← getOrDict process_object "locationInfo"
  let facility ← getOrDict location_info "facility"
  let properties ← getOrDict process_object "properties"
  let fuels ← getOrList properties "fuels"
  let active_auction ← getOrDict item "activeAuction"
  let winning_bid ← getOrDict item "winningBid"
  let hb0 ← getOrDict active_auction "highestBid"
  let highest_bid ← pyGetD hb0 "amount" .none
  let auction_url0 ← pyGetD item "auctionUrl" (.str "")
  let auction_url := pyOr auction_url0 (.str "")
  let auction_id ←
    if auction_url.truthy then do
      let u ← pyAsStr auction_url
      pure (match searchTrailingNum u with
            | some d => PyVal.str d
            | Option.none => PyVal.none)
    else pure PyVal.none
  let model_name0 ← pyGetD base_obj "modelName" (.str "")
  let model_name := pyOr model_name0 (.str "")
  let enterFuels ←
    if fuels.truthy then do
      let n ← pyLen fuels
      pure (decide (n > 0))
    else pure false
  let (fuel_code, engine_power_hp, engine_power) ←
    if enterFuels then do
      let f0 ← pyIndex0 fuels
      let fuel_code ← pyGetD f0 "fuelCode" .none
      let b2 ← pyGetD process_object "baseObject" (.dict [])
      let ai0 ← pyGetD b2 "authorityRegisterInformation" (.dict [])
      let authority_info := pyOr ai0 (.dict [])
      let tech_spec ← getOrDict authority_info "generalTechSpecification"
      let tech_fuels ← getOrList tech_spec "fuels"
      let enterTech ←
        if tech_fuels.truthy then do
          let n ← pyLen tech_fuels
          pure (decide (n > 0))
        else pure false
      if enterTech then do
        let tf0 ← pyIndex0 tech_fuels
        let eph ← pyGetD tf0 "enginePowerHp" .none
        let ep ← pyGetD tf0 "enginePower" .none
        pure (fuel_code, some eph, some ep)
      else do
        let eph ←
          if model_name.truthy then do
            let s ← pyAsStr model_name
            pure (match extract_engine_power_from_model_name s with
                  | some n => PyVal.int n
                  | Option.none => PyVal.none)
          else pure PyVal.none
        pure (fuel_code, some eph, some PyVal.none)
    else pure (PyVal.none, Option.none, Option.none)
  let battery_capacity ← regexBatteryVal model_name
  let brand0 ← pyGetD properties "brand" .none
  let brand ←
    if (orNone brand0).truthy then do
      let s ← pyAsStr (orNone brand0)
      pure (PyVal.str (clean_brand_name s))
    else pure PyVal.none
  let model_name_short := clean_model_name (strOrEmpty model_name)
  let model_name_with_brand :=
    if brand.truthy && !model_name_short.isEmpty then
      (strOrEmpty brand) ++ " " ++ model_name_short
    else model_name_short
  let battery_capacity := teslaAdjust battery_capacity brand model_name_with_brand
  let sold_for0 ← pyGetD item "soldFor" .none
  let sold_for1 := orNone sold_for0
  let sold_for := if sold_for1.truthy then catchToNone (pyFloat sold_for1) else PyVal.none
  let soldPos :=
    match sold_for with
    | .float q => decide (q > 0)
    | _ => false
  let model_name_search :=
    if soldPos then PyVal.str model_name_with_brand else PyVal.none
  let model_name_electric_search :=
    if pyEqStr fuel_code "Electric" && soldPos then PyVal.str model_name_with_brand
    else PyVal.none
  let model_name_fossil_search :=
    if !pyEqStr fuel_code "Electric" && soldPos then PyVal.str model_name_with_brand
    else PyVal.none
  let brand_electric_search :=
    if pyEqStr fuel_code "Electric" && soldPos then brand else PyVal.none
  let brand_fossil_search :=
    if !pyEqStr fuel_code "Electric" && soldPos then brand else PyVal.none
  let closedAt ← pyGetD item "closedAt" .none
  let publishedAt ← pyGetD item "publishedAt" .none
  let sellMethod ← pyGetD item "sellMethod" .none
  let slug0 ← pyGetD item "slug" (.str "")
  let buyNowAmount ← pyGetD item "buyNowAmount" .none
  let buyNowAvailable0 ← pyGetD item "buyNowAvailable" .none
  let preliminaryPrice ← pyGetD item "preliminaryPrice" .none
  let isSoldByBuyNow0 ← pyGetD item "isSoldByBuyNow" .none
  let winningBidAmount ← pyGetD winning_bid "amount" .none
  let rpr0 ← pyGetD active_auction "reservationPriceReached" .none
  let electricType ← pyGetD properties "electricType" .none
  let odometerReading ← pyGetD properties "odometerReading" .none
  let bodyP ← pyGetD properties "body" .none
  let familyName ← pyGetD properties "familyName" .none
  let registrationPlate ← pyGetD base_obj "registrationPlate" .none
  let year ← pyGetD base_obj "year" .none
  let facilityPostCode ← pyGetD facility "postCode" .none
  let facilityCity ← pyGetD facility "city" .none
  let rangeCity ←
    if fuels.truthy then do
      let f0 ← pyIndex0 fuels
      pyGetD f0 "rangeCityWltpDrive" .none
    else pure PyVal.none
  let rangeW ←
    if fuels.truthy then do
      let f0 ← pyIndex0 fuels
      pyGetD f0 "rangeWltpDrive" .none
    else pure PyVal.none
  let gearbox ← pyGetD properties "gearbox" .none
  pure
    { auctionId := auction_id
      closedAt := orNone closedAt
      publishedAt := orNone publishedAt
      soldFor := sold_for
      sellMethod := orNone sellMethod
      slug := pyOr slug0 (.str "")
      auctionUrl := auction_url
      buyNowAmount := orNone buyNowAmount
      buyNowAvailable := .bool buyNowAvailable0.truthy
      preliminaryPrice := orNone preliminaryPrice
      isSoldByBuyNow := .bool isSoldByBuyNow0.truthy
      winningBid := orNone winningBidAmount
      reservationPriceReached := .bool rpr0.truthy
      highestBid := orNone highest_bid
      electricType := orNone electricType
      odometerReading := orNone odometerReading
      body := orNone bodyP
      brand := brand
      brandElectricSearch := brand_electric_search
      brandFossilSearch := brand_fossil_search
      familyName := orNone familyName
      registrationPlate := orNone registrationPlate
      modelName := model_name
      modelNamePresentation := .str model_name_with_brand
      modelNameSearch := model_name_search
      modelNameElectricSearch := model_name_electric_search
      modelNameFossilSearch := model_name_fossil_search
      year := orNone year
      facilityPostCode := orNone facilityPostCode
      facilityCity := orNone facilityCity
      fuelCode := fuel_code
      batteryCapacity := battery_capacity
      rangeCityWltpDrive := rangeCity
      rangeWltpDrive := rangeW
      enginePowerHpOpt := engine_power_hp
      enginePowerOpt := engine_power
      gearbox := orNone gearbox }

def buildDataCC (c : FieldsCC) (eph ep : PyVal) : List (String × PyVal) :=
  [("auctionId", c.auctionId), ("closedAt", c.closedAt), ("publishedAt", c.publishedAt),
   ("soldFor", c.soldFor), ("sellMethod", c.sellMethod), ("slug", c.slug),
   ("auctionUrl", c.auctionUrl), ("buyNowAmount", c.buyNowAmount),
   ("buyNowAvailable", c.buyNowAvailable), ("preliminaryPrice", c.preliminaryPrice),
   ("isSoldByBuyNow", c.isSoldByBuyNow), ("winningBid", c.winningBid),
   ("reservationPriceReached", c.reservationPriceReached), ("highestBid", c.highestBid),
   ("electricType", c.electricType), ("odometerReading", c.odometerReading),
   ("body", c.body), ("brand", c.brand),
   ("brandElectricSearch", c.brandElectricSearch), ("brandFossilSearch", c.brandFossilSearch),
   ("familyName", c.familyName), ("registrationPlate", c.registrationPlate),
   ("modelName", c.modelName), ("modelNamePresentation", c.modelNamePresentation),
   ("modelNameSearch", c.modelNameSearch),
   ("modelNameElectricSearch", c.modelNameElectricSearch),
   ("modelNameFossilSearch", c.modelNameFossilSearch), ("year", c.year),
   ("facilityPostCode", c.facilityPostCode), ("facilityCity", c.facilityCity),
   ("fuelCode", c.fuelCode), ("batteryCapacity", c.batteryCapacity),
   ("rangeCityWltpDrive", c.rangeCityWltpDrive), ("rangeWltpDrive", c.rangeWltpDrive),
   ("enginePowerHp", eph), ("enginePower", ep), ("gearbox", c.gearbox)]

/-- Reading a possibly-unbound local (`UnboundLocalError`). -/
def readLocal (v : Option PyVal) : PyM PyVal :=
  match v with
  | some w => .ok w
  | Option.none => .error .nameError

def extractLoopCC : List (String × PyVal) → PyM (List (String × PyVal))
  | [] => pure []
  | (_, item) :: rest =>
    if item.truthy then do
      let c ← coreCC item
      let eph ← readLocal c.enginePowerHpOpt
      let ep ← readLocal c.enginePowerOpt
      pure (buildDataCC c eph ep)
    else extractLoopCC rest

namespace CrawlerPy

/-- `car_crawler.py:extract_fields`. -/
def extract_fields (store : PyVal) : PyM (List (String × PyVal)) := do
  let ov ← pyGetD store "objectView" (.dict [])
  let so ← pyGetD ov "storeObjects" (.dict [])
  let entries ← pyItems so
  extractLoopCC entries

end CrawlerPy

/-! ### Small helpers for stating and proving record properties -/

/-- Remove one key from a record dict. -/
def eraseKey (k : String) (r : List (String × PyVal)) : List (String × PyVal) :=
  r.filter (fun p => p.1 != k)

theorem except_bind_ok {α β : Type} {x : PyM α} {f : α → PyM β} {b : β}
    (h : (x >>= f) = .ok b) : ∃ a, x = .ok a ∧ f a = .ok b := by
  cases x with
  | ok a => exact ⟨a, rfl, h⟩
  | error e => exact absurd h (by simp [Bind.bind, Except.bind])

/-- The loop result is either the initial `{}` or one assembled dict. -/
theorem extractLoop_ok (build : Fields → PyVal → List (String × PyVal)) (store : PyVal) :
    ∀ (entries : List (String × PyVal)) (d : List (String × PyVal)),
      extractLoop build store entries = .ok d →
      d = [] ∨ ∃ c ovj, d = build c ovj := by
  intro entries
  induction entries with
  | nil =>
    intro d h
    left
    simpa [extractLoop, pure, Except.pure] using h.symm
  | cons e rest ih =>
    intro d h
    obtain ⟨k, item⟩ := e
    by_cases ht : item.truthy
    · simp only [extractLoop, ht, if_pos] at h
      obtain ⟨c, _, h2⟩ := except_bind_ok h
      obtain ⟨ovj, _, h3⟩ := except_bind_ok h2
      right
      exact ⟨c, ovj, by simpa [pure, Except.pure] using h3.symm⟩
    · simp only [extractLoop, ht, if_neg, Bool.false_eq_true, not_false_iff] at h
      exact ih d h

/-- C2 counterexample input (the spec's own worked example). -/
def c2input : String := "Model 3 Long Range (228hk), 80,0 kWh,"

/-- C2: the claim as stated is false: `clean_model_name` does not return the
trimmed string `"Model 3 Long Range"` on the spec's example; the final
`re.sub(r',\s*', ' ', ...)` runs after `strip()`, so each of the two
trailing commas becomes a space and the result carries two trailing
spaces. -/
theorem C2_clean_model_name_cex :
    clean_model_name c2input ≠ "Model 3 Long Range" ∧
    clean_model_name c2input = "Model 3 Long Range  " := by
  exact ⟨by decide, rfl⟩

/-- C2 (amended): on `"Model 3 Long Range (228hk), 80,0 kWh,"`,
`clean_model_name` removes the parenthesized horsepower annotation and the
kWh annotation and replaces each comma (with its trailing whitespace) by a
single space; because the `strip()` happens before that comma replacement,
the two commas at the end become two trailing spaces, giving
`"Model 3 Long Range  "` (not trimmed at the end). -/
theorem C2_clean_model_name :
    clean_model_name "Model 3 Long Range (228hk), 80,0 kWh," = "Model 3 Long Range  " := rfl

/-- C1 counterexample store: `soldFor = 100000` and a model name whose kWh
pattern yields `batteryCapacity = 50.0`. -/
def c1store : PyVal :=
  .dict [("objectView", .dict [("storeObjects", .dict [("123", .dict [
    ("auctionUrl", .str "https://www.kvd.se/auktioner/volvo-v60-123456"),
    ("soldFor", .int 100000),
    ("processObject", .dict [
      ("baseObject", .dict [("modelName", .str "Polestar 2 Long Range 50,0 kWh")]),
      ("properties", .dict [("brand", .str "Polestar")])])])])])]

/-- C1: the claim as stated is false: at `soldFor = 100000` and
`batteryCapacity = 50.0` the record produced by `extract_fields` contains
no `costPerKwh` entry at all (so in particular not `2000.0`). -/
theorem C1_costPerKwh_cex :
    (MainPy.extract_fields c1store).map
        (fun d => (lookupStr d "soldFor", lookupStr d "batteryCapacity",
                   lookupStr d "costPerKwh"))
      = .ok (some (.float 100000), some (.float 50), Option.none) := rfl

/-- C1 (amended): no variant of the pipeline computes a `costPerKwh` field:
every record `main.py:extract_fields` returns has no `costPerKwh` key. -/
theorem C1_no_costPerKwh (store : PyVal) (d : List (String × PyVal))
    (h : MainPy.extract_fields store = .ok d) :
    lookupStr d "costPerKwh" = Option.none := by
  unfold MainPy.extract_fields at h
  obtain ⟨ov, _, h1⟩ := except_bind_ok h
  obtain ⟨so, _, h2⟩ := except_bind_ok h1
  obtain ⟨entries, _, h3⟩ := except_bind_ok h2
  rcases extractLoop_ok buildDataMainPy store entries d h3 with hd | ⟨c, ovj, hd⟩
  · subst hd; rfl
  · subst hd; rfl

/-- C1 witness: the amended theorem applied at the counterexample store. -/
theorem C1_no_costPerKwh_witness :
    lookupStr ((MainPy.extract_fields c1store).toOption.getD []) "costPerKwh" = Option.none :=
  C1_no_costPerKwh c1store ((MainPy.extract_fields c1store).toOption.getD []) rfl

/-! ### C10: `main.py` versus `main_old.py` -/

theorem eraseBody_build_eq (c : Fields) (ovj : PyVal) :
    eraseKey "body" (buildDataMainPy c ovj) = eraseKey "body" (buildDataMainOld c ovj) := rfl

theorem extractLoop_erase_body (store : PyVal) :
    ∀ entries : List (String × PyVal),
      (extractLoop buildDataMainPy store entries).map (eraseKey "body")
        = (extractLoop buildDataMainOld store entries).map (eraseKey "body") := by
  intro entries
  induction entries with
  | nil => rfl
  | cons e rest ih =>
    obtain ⟨k, item⟩ := e
    by_cases ht : item.truthy
    · simp only [extractLoop, ht, if_pos]
      cases hc : coreMain item with
      | error err => simp [Bind.bind, Except.bind, Except.map]
      | ok c =>
        cases ho : pyGetD store "objectView" (.dict []) with
        | error err => simp [Bind.bind, Except.bind, Except.map]
        | ok ovj =>
          simp [Bind.bind, Except.bind, Except.map, pure, Except.pure,
                eraseBody_build_eq c ovj]
    · simpa only [extractLoop, ht, if_neg, Bool.false_eq_true, not_false_iff] using ih

/-- C10 (amended): outside the `body` field the two mappers agree on every
input (including raising the same exceptions); `main.py` reads `body` from
`properties`, `main_old.py` reads it from the base object. -/
theorem C10_extract_fields_agree_except_body (store : PyVal) :
    (MainPy.extract_fields store).map (eraseKey "body")
      = (MainOld.extract_fields store).map (eraseKey "body") := by
  unfold MainPy.extract_fields MainOld.extract_fields
  cases h1 : pyGetD store "objectView" (.dict []) with
  | error err => simp [Bind.bind, Except.bind, Except.map]
  | ok ov =>
    cases h2 : pyGetD ov "storeObjects" (.dict []) with
    | error err => simp [Bind.bind, Except.bind, Except.map, h2]
    | ok so =>
      cases h3 : pyItems so with
      | error err => simp [Bind.bind, Except.bind, Except.map, h2, h3]
      | ok entries =>
        simp only [Bind.bind, Except.bind, h2, h3]
        exact extractLoop_erase_body store entries

/-- C10 counterexample store: `properties.body` present, no `baseObject.body`. -/
def c10store : PyVal :=
  .dict [("objectView", .dict [("storeObjects", .dict [("k", .dict [
    ("processObject", .dict [("properties", .dict [("body", .str "SUV")])])])])])]

/-- C10: the claim as stated is false: on a tree where `properties.body` is
`"SUV"` and the base object has no `body`, `main.py` maps `body = "SUV"`
while `main_old.py` maps `body = null`, so the two records differ. -/
theorem C10_extract_fields_cex :
    MainPy.extract_fields c10store ≠ MainOld.extract_fields c10store := by
  intro h
  have h2 := congrArg (Except.map (fun d => lookupStr d "body")) h
  rw [show (MainPy.extract_fields c10store).map (fun d => lookupStr d "body")
        = .ok (some (.str "SUV")) from rfl,
      show (MainOld.extract_fields c10store).map (fun d => lookupStr d "body")
        = .ok (some PyVal.none) from rfl] at h2
  simp at h2

/-! ### C8: one record per page, first truthy entry -/

/-- A store tree whose `objectView.storeObjects` map holds the given entries. -/
def mkStore (entries : List (String × PyVal)) : PyVal :=
  .dict [("objectView", .dict [("storeObjects", .dict entries)])]

theorem extract_fields_mkStore (entries : List (String × PyVal)) :
    MainPy.extract_fields (mkStore entries)
      = extractLoop buildDataMainPy (mkStore entries) entries := rfl

theorem extractLoop_allFalsy (build : Fields → PyVal → List (String × PyVal))
    (store : PyVal) :
    ∀ entries : List (String × PyVal), (∀ p ∈ entries, p.2.truthy = false) →
      extractLoop build store entries = .ok [] := by
  intro entries
  induction entries with
  | nil => intro _; rfl
  | cons e rest ih =>
    intro h
    obtain ⟨k, item⟩ := e
    have ht : item.truthy = false := h (k, item) (List.mem_cons_self _ _)
    simp only [extractLoop, ht, Bool.false_eq_true, if_false]
    exact ih (fun p hp => h p (List.mem_cons_of_mem _ hp))

theorem extractLoop_skipFalsy (build : Fields → PyVal → List (String × PyVal))
    (store : PyVal) (l : List (String × PyVal)) :
    ∀ prev : List (String × PyVal), (∀ p ∈ prev, p.2.truthy = false) →
      extractLoop build store (prev ++ l) = extractLoop build store l := by
  intro prev
  induction prev with
  | nil => intro _; rfl
  | cons e rest ih =>
    intro h
    obtain ⟨k, item⟩ := e
    have ht : item.truthy = false := h (k, item) (List.mem_cons_self _ _)
    simp only [List.cons_append, extractLoop, ht, Bool.false_eq_true, if_false]
    exact ih (fun p hp => h p (List.mem_cons_of_mem _ hp))

/-- C8 (amended): at most one record per input; falsy entries are skipped and
the record is built from the first truthy entry of `storeObjects`; entries
after that one influence the returned record only through the verbatim
`objectViewJson` copy of the `objectView` subtree; an empty or all-falsy map
yields an empty result. -/
theorem C8_first_truthy_entry :
    (∀ entries : List (String × PyVal), (∀ p ∈ entries, p.2.truthy = false) →
      MainPy.extract_fields (mkStore entries) = .ok []) ∧
    (∀ (prev : List (String × PyVal)) (k : String) (item : PyVal)
       (rest rest' : List (String × PyVal)),
      (∀ p ∈ prev, p.2.truthy = false) → item.truthy = true →
      (MainPy.extract_fields (mkStore (prev ++ (k, item) :: rest))).map
          (eraseKey "objectViewJson")
        = (MainPy.extract_fields (mkStore (prev ++ (k, item) :: rest'))).map
          (eraseKey "objectViewJson")) := by
  constructor
  · intro entries h
    rw [extract_fields_mkStore]
    exact extractLoop_allFalsy _ _ entries h
  · intro prev k item rest rest' hprev hitem
    rw [extract_fields_mkStore, extract_fields_mkStore,
        extractLoop_skipFalsy _ _ _ prev hprev, extractLoop_skipFalsy _ _ _ prev hprev]
    simp only [extractLoop, hitem, if_pos]
    cases hc : coreMain item with
    | error err => simp [Bind.bind, Except.bind, Except.map]
    | ok c =>
      simp only [Bind.bind, Except.bind, Except.map, pure, Except.pure]
      rfl

/-- A minimal truthy auction entry. -/
def c8item : PyVal := .dict [("auctionUrl", .str "kvd-1")]

/-- C8: the claim as stated is false: with a falsy first entry, a second
entry does change the returned record (the loop `continue`s past falsy
entries instead of stopping at the literal first entry). -/
theorem C8_first_entry_cex :
    MainPy.extract_fields (mkStore [("a", PyVal.none)]) = .ok [] ∧
    (MainPy.extract_fields (mkStore [("a", PyVal.none), ("b", c8item)])).map
        List.isEmpty = .ok false := ⟨rfl, rfl⟩

/-- C8 witness: the amended theorem at concrete inputs. -/
theorem C8_first_truthy_entry_witness :
    MainPy.extract_fields (mkStore [("a", PyVal.none)]) = .ok [] ∧
    (MainPy.extract_fields (mkStore [("a", PyVal.none), ("b", c8item), ("c", c8item)])).map
        (eraseKey "objectViewJson")
      = (MainPy.extract_fields (mkStore [("a", PyVal.none), ("b", c8item)])).map
        (eraseKey "objectViewJson") :=
  ⟨C8_first_truthy_entry.1 [("a", PyVal.none)] (by decide),
   C8_first_truthy_entry.2 [("a", PyVal.none)] "b" c8item [("c", c8item)] [] (by decide) rfl⟩

/-! ### C9: the Tesla battery-capacity fallback -/

/-- A store whose single auction entry has model name `m` and brand `b`. -/
def teslaItem (m b : String) : PyVal :=
  .dict [("processObject", .dict [
    ("baseObject", .dict [("modelName", .str m)]),
    ("properties", .dict [("brand", .str b)])])]

def storeTesla (m b : String) : PyVal :=
  .dict [("objectView", .dict [("storeObjects", .dict [("x", teslaItem m b)])])]

/-- The `batteryCapacity` entry of an extraction result. -/
def batteryOf (x : PyM (List (String × PyVal))) : PyM (Option PyVal) :=
  x.map (fun d => lookupStr d "batteryCapacity")

/-- The battery capacity the kWh regex yields on a model name (the value the
source's regex block computes for a truthy string model name). -/
def regexCapacityVal (m : String) : PyVal :=
  match searchKwhCap m with
  | some g =>
    match parsePyFloat (pyReplace g "," ".") with
    | some q => .float q
    | Option.none => .none
  | Option.none => .none

/-- The value of the static Tesla table lookup as a record field. -/
def teslaFallbackVal (s : String) : PyVal :=
  match get_tesla_battery_capacity s with
  | some q => .float q
  | Option.none => .none

/-- `model_name` as bound in the loop body for the `storeTesla` family. -/
def c9mn (m : String) : PyVal := pyOr (.str m) (.str "")

/-- The loop-body values for the `storeTesla` family, parameterised by the
battery value still to be bound. -/
def c9fields (m : String) (battery : PyVal) : Fields :=
  { auctionId := .none, closedAt := .none, publishedAt := .none, soldFor := .none,
    sellMethod := .none, slug := .str "", auctionUrl := .str "", buyNowAmount := .none,
    buyNowAvailable := .bool false, preliminaryPrice := .none, isSoldByBuyNow := .bool false,
    winningBid := .none, reservationPriceReached := .bool false, highestBid := .none,
    electricType := .none, odometerReading := .none, bodyFromProperties := .none,
    bodyFromBaseObject := .none, brand := .str "Tesla", familyName := .none,
    registrationPlate := .none, modelName := c9mn m,
    modelNamePresentation := .str (clean_model_name (strOrEmpty (c9mn m))),
    year := .none, facilityPostCode := .none, facilityCity := .none, fuelCode := .none,
    batteryCapacity := teslaAdjust battery (.str "Tesla")
      (clean_model_name (strOrEmpty (c9mn m))),
    rangeCityWltpDrive := .none, rangeWltpDrive := .none, enginePowerHp := .none,
    enginePower := .none, gearbox := .none, baseObjectType := .none }

theorem c9_extract_step (m : String) :
    MainPy.extract_fields (storeTesla m "Tesla")
      = ((regexBatteryVal (c9mn m) >>= fun battery => pure (c9fields m battery)) >>= fun c =>
          pyGetD (storeTesla m "Tesla") "objectView" (.dict []) >>= fun ovj =>
            pure (buildDataMainPy c ovj)) := rfl

theorem regexBatteryVal_or (m : String) :
    regexBatteryVal (c9mn m) = .ok (regexCapacityVal m) := by
  by_cases hm : m = ""
  · subst hm; rfl
  · have hne : m.isEmpty = false := by
      cases he : m.isEmpty
      · rfl
      · exact absurd ((String.isEmpty_iff m).mp he) hm
    simp [c9mn, pyOr, PyVal.truthy, hne, regexBatteryVal, pyAsStr, regexCapacityVal,
      pure, Except.pure, Bind.bind, Except.bind]
    try rfl

theorem strOrEmpty_c9mn (m : String) : strOrEmpty (c9mn m) = m := by
  by_cases hm : m = ""
  · subst hm; rfl
  · have hne : m.isEmpty = false := by
      cases he : m.isEmpty
      · rfl
      · exact absurd ((String.isEmpty_iff m).mp he) hm
    simp [c9mn, pyOr, PyVal.truthy, hne, strOrEmpty]

theorem c9_battery_characterization (m : String) :
    batteryOf (MainPy.extract_fields (storeTesla m "Tesla"))
      = .ok (some (if (regexCapacityVal m).isNone && !(clean_model_name m).isEmpty
                   then teslaFallbackVal (clean_model_name m)
                   else regexCapacityVal m)) := by
  rw [batteryOf, c9_extract_step, regexBatteryVal_or]
  simp only [Bind.bind, Except.bind, pure, Except.pure, Except.map]
  rw [show pyGetD (storeTesla m "Tesla") "objectView" (.dict [])
      = Except.ok (.dict [("storeObjects", .dict [("x", teslaItem m "Tesla")])]) from rfl]
  simp only []
  rw [show lookupStr (buildDataMainPy (c9fields m (regexCapacityVal m))
        (.dict [("storeObjects", .dict [("x", teslaItem m "Tesla")])])) "batteryCapacity"
      = some (c9fields m (regexCapacityVal m)).batteryCapacity from rfl]
  simp only [c9fields, strOrEmpty_c9mn, teslaAdjust, pyEqStr, teslaFallbackVal]
  simp [pyEqStr]
  try rfl

/-- C9: the Tesla fallback fires exactly when the kWh regex yielded no
capacity and the (cleaned) brand is exactly `"Tesla"`, looking up the
cleaned model name with the `"Tesla "` prefix stripped: for every model
name the mapped `batteryCapacity` equals the regex value when present and
otherwise the table lookup on the cleaned name (null when the cleaned name
is empty or unknown); concretely, `"Model S 100D"` and
`"Tesla Model S 100D"` under brand `"Tesla"` give `100.0`, an unknown trim
gives null, and a non-`"Tesla"` brand gives null. -/
theorem C9_tesla_fallback :
    (∀ m : String,
      batteryOf (MainPy.extract_fields (storeTesla m "Tesla"))
        = .ok (some (if (regexCapacityVal m).isNone && !(clean_model_name m).isEmpty
                     then teslaFallbackVal (clean_model_name m)
                     else regexCapacityVal m))) ∧
    batteryOf (MainPy.extract_fields (storeTesla "Model S 100D" "Tesla"))
      = .ok (some (.float 100)) ∧
    batteryOf (MainPy.extract_fields (storeTesla "Tesla Model S 100D" "Tesla"))
      = .ok (some (.float 100)) ∧
    batteryOf (MainPy.extract_fields (storeTesla "Model S 33D" "Tesla"))
      = .ok (some .none) ∧
    batteryOf (MainPy.extract_fields (storeTesla "Model S 100D" "Volvo"))
      = .ok (some .none) :=
  ⟨c9_battery_characterization, rfl, rfl, rfl, rfl⟩

/-! ### `json.loads` and the balanced-bracket blob extractor

`json.loads` is embedded as a fuel-indexed recursive-descent reader of the
strict JSON grammar (object keys are inserted in order, a duplicate key
overwriting the earlier value, as CPython's dict construction does; lone
surrogate escapes are not modelled — no input here contains `\uXXXX`).
Failure (`JSONDecodeError`) is `Option.none`. -/

def jsonWsChar (c : Char) : Bool :=
  c = ' ' || c = '\t' || c = '\n' || c = '\x0d'

def skipJsonWs (cs : List Char) : List Char := cs.dropWhile jsonWsChar

def hexVal (c : Char) : Option Nat :=
  if c.isDigit then some (c.toNat - 48)
  else if 'a' ≤ c && c ≤ 'f' then some (c.toNat - 87)
  else if 'A' ≤ c && c ≤ 'F' then some (c.toNat - 55)
  else Option.none

/-- Insert a member into an object under construction (duplicate keys: the
later value replaces the earlier one in place). -/
def setKey (kvs : List (String × PyVal)) (k : String) (v : PyVal) :
    List (String × PyVal) :=
  match kvs with
  | [] => [(k, v)]
  | (k', v') :: rest => if k' == k then (k, v) :: rest else (k', v') :: setKey rest k v

/-- JSON number: integer literals become `int`, fraction or exponent `float`. -/
def jParseNum (cs : List Char) : Option (PyVal × List Char) :=
  let (sign, cs1) :=
    match cs with
    | '-' :: r => ((-1 : Int), r)
    | _ => ((1 : Int), cs)
  let ipOpt : Option (List Char × List Char) :=
    match cs1 with
    | '0' :: r => some (['0'], r)
    | c :: _ =>
      if c.isDigit then some (cs1.takeWhile Char.isDigit, cs1.dropWhile Char.isDigit)
      else Option.none
    | [] => Option.none
  match ipOpt with
  | Option.none => Option.none
  | some (ip, r1) =>
    let (fp, r2, hasFrac) :=
      match r1 with
      | '.' :: r =>
        if (r.takeWhile Char.isDigit).isEmpty then ([], r1, false)
        else (r.takeWhile Char.isDigit, r.dropWhile Char.isDigit, true)
      | _ => ([], r1, false)
    if hasFrac = false && (match r1 with | '.' :: _ => true | _ => false) then Option.none
    else
      let (exOpt, r3) :=
        match r2 with
        | e :: r =>
          if e = 'e' || e = 'E' then
            let (es, rr) :=
              match r with
              | '-' :: r4 => ((-1 : Int), r4)
              | '+' :: r4 => ((1 : Int), r4)
              | _ => ((1 : Int), r)
            let ed := rr.takeWhile Char.isDigit
            if ed.isEmpty then (some Option.none, r2)
            else (some (some (es * (digitsToNat ed : Int))), rr.dropWhile Char.isDigit)
          else (Option.none, r2)
        | [] => (Option.none, r2)
      match exOpt with
      | some Option.none => Option.none  -- `e` with no digits: invalid
      | Option.none =>
        if hasFrac then
          some (.float (mkRat (sign * (digitsToNat (ip ++ fp) : Int)) (10 ^ fp.length)), r3)
        else some (.int (sign * (digitsToNat ip : Int)), r3)
      | some (some ex) =>
        let mant : Int := sign * (digitsToNat (ip ++ fp) : Int)
        let shift : Int := ex - (fp.length : Int)
        let q : Rat :=
          if shift ≥ 0 then ((mant * 10 ^ shift.toNat : Int) : Rat)
          else mkRat mant (10 ^ (-shift).toNat)
        some (.float q, r3)

mutual

def jParseVal : Nat → List Char → Option (PyVal × List Char)
  | 0, _ => Option.none
  | fuel + 1, cs =>
    match skipJsonWs cs with
    | 'n' :: 'u' :: 'l' :: 'l' :: r => some (.none, r)
    | 't' :: 'r' :: 'u' :: 'e' :: r => some (.bool true, r)
    | 'f' :: 'a' :: 'l' :: 's' :: 'e' :: r => some (.bool false, r)
    | '"' :: r => (jParseStrBody fuel r []).map (fun p => (PyVal.str p.1, p.2))
    | '[' :: r =>
      (match skipJsonWs r with
       | ']' :: r2 => some (.list [], r2)
       | _ => (jParseArrItems fuel r []).map (fun p => (PyVal.list p.1, p.2)))
    | '{' :: r =>
      (match skipJsonWs r with
       | '}' :: r2 => some (.dict [], r2)
       | _ => (jParseObjItems fuel r []).map (fun p => (PyVal.dict p.1, p.2)))
    | cs' => jParseNum cs'

def jParseStrBody : Nat → List Char → List Char → Option (String × List Char)
  | 0, _, _ => Option.none
  | fuel + 1, cs, acc =>
    match cs with
    | [] => Option.none
    | '"' :: r => some (String.mk acc.reverse, r)
    | '\\' :: e :: r =>
      (match e with
       | '"' => jParseStrBody fuel r ('"' :: acc)
       | '\\' => jParseStrBody fuel r ('\\' :: acc)
       | '/' => jParseStrBody fuel r ('/' :: acc)
       | 'b' => jParseStrBody fuel r ('\x08' :: acc)
       | 'f' => jParseStrBody fuel r ('\x0c' :: acc)
       | 'n' => jParseStrBody fuel r ('\n' :: acc)
       | 'r' => jParseStrBody fuel r ('\x0d' :: acc)
       | 't' => jParseStrBody fuel r ('\t' :: acc)
       | 'u' =>
         (match r with
          | h1 :: h2 :: h3 :: h4 :: r2 =>
            (match hexVal h1, hexVal h2, hexVal h3, hexVal h4 with
             | some a, some b, some c, some d =>
               jParseStrBody fuel r2 (Char.ofNat (a * 4096 + b * 256 + c * 16 + d) :: acc)
             | _, _, _, _ => Option.none)
          | _ => Option.none)
       | _ => Option.none)
    | c :: r =>
      if c.toNat < 32 then Option.none
      else jParseStrBody fuel r (c :: acc)

def jParseArrItems : Nat → List Char → List PyVal → Option (List PyVal × List Char)
  | 0, _, _ => Option.none
  | fuel + 1, cs, acc =>
    match jParseVal fuel cs with
    | some (v, r) =>
      (match skipJsonWs r with
       | ',' :: r2 => jParseArrItems fuel r2 (v :: acc)
       | ']' :: r2 => some ((v :: acc).reverse, r2)
       | _ => Option.none)
    | Option.none => Option.none

def jParseObjItems : Nat → List Char → List (String × PyVal) →
    Option (List (String × PyVal) × List Char)
  | 0, _, _ => Option.none
  | fuel + 1, cs, acc =>
    match skipJsonWs cs with
    | '"' :: r =>
      (match jParseStrBody fuel r [] with
       | some (k, r2) =>
         (match skipJsonWs r2 with
          | ':' :: r3 =>
            (match jParseVal fuel r3 with
             | some (v, r4) =>
               (match skipJsonWs r4 with
                | ',' :: r5 => jParseObjItems fuel r5 (setKey acc k v)
                | '}' :: r5 => some (setKey acc k v, r5)
                | _ => Option.none)
             | Option.none => Option.none)
          | _ => Option.none)
       | Option.none => Option.none)
    | _ => Option.none

end

/-- `json.loads` (strict): parse one value and require only whitespace after
it.  The fuel bound suffices: every two units of fuel consume at least one
character. -/
def pyJsonLoads (s : String) : Option PyVal :=
  match jParseVal (2 * s.toList.length + 2) s.toList with
  | some (v, rest) => if (skipJsonWs rest).isEmpty then some v else Option.none
  | Option.none => Option.none

/-- The `depth` loop of `extract_store_objects`: starting from the given
depth, return the consumed prefix up to and including the brace that first
returns the depth to zero, with the remainder. -/
def braceScan : List Char → Int → Option (List Char × List Char)
  | [], _ => Option.none
  | c :: rest, depth =>
    let depth' := if c = '{' then depth + 1 else if c = '}' then depth - 1 else depth
    if c = '}' && depth' = 0 then some ([c], rest)
    else
      match braceScan rest depth' with
      | some (cons, r) => some (c :: cons, r)
      | Option.none => Option.none

/-- `extract_store_objects` (identical in all three source files): find the
first `{`, scan to the matching close by depth counting, `json.loads` the
slice; `None` when there is no `{`, the braces never rebalance, or the slice
fails to parse. -/
def extract_store_objects (script_content : String) : Option PyVal :=
  match script_content.toList.dropWhile (fun c => c != '{') with
  | [] => Option.none
  | cs =>
    match braceScan cs 0 with
    | some (json_str, _) => pyJsonLoads (String.mk json_str)
    | Option.none => Option.none

/-! ### C4 theorems -/

theorem strToList_append (a b : String) : (a ++ b).toList = a.toList ++ b.toList := rfl

theorem dropWhile_append_all {α : Type} (p : α → Bool) :
    ∀ (pre rest : List α), (∀ c ∈ pre, p c = true) →
      (pre ++ rest).dropWhile p = rest.dropWhile p := by
  intro pre rest
  induction pre with
  | nil => intro _; rfl
  | cons c cs ih =>
    intro h
    simp only [List.cons_append, List.dropWhile_cons, h c (List.mem_cons_self _ _), if_pos]
    exact ih (fun x hx => h x (List.mem_cons_of_mem _ hx))

theorem braceScan_append :
    ∀ (xs : List Char) (d : Int) (cons r ys : List Char),
      braceScan xs d = some (cons, r) →
      braceScan (xs ++ ys) d = some (cons, r ++ ys) := by
  intro xs
  induction xs with
  | nil => intro d cons r ys h; exact absurd h (by simp [braceScan])
  | cons c rest ih =>
    intro d cons r ys h
    simp only [braceScan, List.cons_append] at h ⊢
    by_cases hstop : (c = '}' && (if c = '{' then d + 1 else if c = '}' then d - 1 else d) = 0) = true
    · simp only [hstop, if_pos] at h ⊢
      obtain ⟨h1, h2⟩ := Prod.mk.injEq .. ▸ Option.some.injEq .. ▸ h
      subst h1 h2
      rfl
    · simp only [hstop, if_neg, Bool.not_eq_true] at h ⊢
      cases hrec : braceScan rest (if c = '{' then d + 1 else if c = '}' then d - 1 else d) with
      | none => rw [hrec] at h; exact absurd h (by simp)
      | some p =>
        rw [hrec] at h
        obtain ⟨cs2, r2⟩ := p
        simp only [Option.some.injEq, Prod.mk.injEq] at h
        obtain ⟨h1, h2⟩ := h
        subst h1 h2
        simp only [List.append_eq]
        rw [ih _ _ _ ys hrec]

/-- The spec's worked example input, with the embedded object and noise. -/
def c4noise : String := "noise "
def c4obj : String := "\x7b\"a\":\x7b\"b\":1\x7d\x7d"
def c4trailing : String := " trailing"

/-- C4 (amended): for every well-formed JSON object literal whose text is
balanced in the naive brace count (depth of every proper prefix positive,
final depth zero), embedded after noise that contains no `{` and before
arbitrary trailing text, `extract_store_objects` returns exactly the parsed
object.  (When the preceding noise itself contains `{`, the scan starts
there instead and the result can be `None` or a different object.) -/
theorem C4_balanced_blob
    (pre obj post : String) (v : PyVal)
    (hpre : ∀ c ∈ pre.toList, c ≠ '{')
    (hhead : obj.toList.head? = some '{')
    (hbal : braceScan obj.toList 0 = some (obj.toList, []))
    (hparse : pyJsonLoads obj = some v) :
    extract_store_objects (pre ++ obj ++ post) = some v := by
  unfold extract_store_objects
  rw [strToList_append, strToList_append, List.append_assoc,
      dropWhile_append_all _ pre.toList _ (by
        intro c hc
        simp only [bne_iff_ne, ne_eq, decide_eq_true_eq]
        exact hpre c hc)]
  obtain ⟨c0, tl, hobj⟩ :
      ∃ c0 tl, obj.toList = c0 :: tl := by
    cases ho : obj.toList with
    | nil => rw [ho] at hhead; exact absurd hhead (by simp)
    | cons a b => exact ⟨a, b, rfl⟩
  have hc0 : c0 = '{' := by
    rw [hobj] at hhead
    simpa using hhead
  subst hc0
  rw [hobj]
  have hscan := braceScan_append obj.toList 0 obj.toList [] post.toList hbal
  rw [hobj] at hscan
  simp only [List.cons_append, List.dropWhile_cons]
  rw [show (('{' : Char) != '{') = false from rfl]
  simp only [Bool.false_eq_true, if_false]
  have hne : ('{' :: tl ++ post.toList) ≠ [] := by simp
  rw [show braceScan ('{' :: (tl ++ post.toList)) 0
        = some ('{' :: tl, [] ++ post.toList) from by
    simpa [List.cons_append] using hscan]
  have : String.mk ('{' :: tl) = obj := by
    rw [show ('{' :: tl) = obj.toList from hobj.symm]
    rfl
  simp only []
  rw [this, hparse]

/-- C4: the claim as stated is false: when the surrounding noise itself
contains a `{`, the scanner starts at the noise's brace and the embedded
well-formed balanced object is not returned (here: `None` despite
`{"a":{"b":1}}` being embedded in the text). -/
theorem C4_balanced_blob_cex :
    extract_store_objects ("\x7b noise " ++ c4obj ++ c4trailing) = Option.none ∧
    pyJsonLoads c4obj = some (.dict [("a", .dict [("b", .int 1)])]) ∧
    braceScan c4obj.toList 0 = some (c4obj.toList, []) := ⟨rfl, rfl, rfl⟩

/-- C4 witness: the amended theorem on the spec's worked example. -/
theorem C4_balanced_blob_witness :
    extract_store_objects (c4noise ++ c4obj ++ c4trailing)
      = some (.dict [("a", .dict [("b", .int 1)])]) :=
  C4_balanced_blob c4noise c4obj c4trailing _ (by decide) rfl rfl rfl

/-! ### `write_to_supabase` (main.py): record reconciliation

The database is modelled as a list of rows (each a column dict); the two SQL
statements the function issues get their standard semantics: the `SELECT`
finds rows whose `auction_id` equals the parameter, the `UPDATE` overwrites
every mapped column of every matching row, the `INSERT` appends a row.  The
surrounding `try/except` makes any exception during preparation a logged
no-op, which the outcome tag records. -/

def hex4 (n : Nat) : String :=
  let d := fun k => Nat.digitChar ((n / k) % 16)
  String.mk [d 4096, d 256, d 16, d 1]

/-- JSON string quoting as `json.dumps` does with `ensure_ascii` (default). -/
def jsonQuote (s : String) : String :=
  "\"" ++ String.join (s.toList.map (fun c =>
    if c = '"' then "\\\""
    else if c = '\\' then "\\\\"
    else if c = '\n' then "\\n"
    else if c = '\x0d' then "\\r"
    else if c = '\t' then "\\t"
    else if c = '\x08' then "\\b"
    else if c = '\x0c' then "\\f"
    else if c.toNat < 32 || c.toNat > 126 then "\\u" ++ hex4 c.toNat
    else String.mk [c])) ++ "\""

/-- Textual form of a float value (approximate: the exact `repr` of an IEEE
float is not modelled; no claim depends on this text). -/
def pyFloatRepr (q : Rat) : String :=
  if q.den == 1 then toString q.num ++ ".0"
  else toString q.num ++ "/" ++ toString q.den

/-- `json.dumps` with default separators. -/
def jsonDumps : PyVal → String
  | .none => "null"
  | .bool b => cond b "true" "false"
  | .int n => toString n
  | .float q => pyFloatRepr q
  | .str s => jsonQuote s
  | .list xs =>
    "[" ++ String.intercalate ", " (xs.attach.map (fun x => jsonDumps x.1)) ++ "]"
  | .dict kvs =>
    "\x7b" ++ String.intercalate ", "
      (kvs.attach.map (fun x => jsonQuote x.1.1 ++ ": " ++ jsonDumps x.1.2)) ++ "\x7d"
termination_by v => sizeOf v
decreasing_by
  · have h := List.sizeOf_lt_of_mem x.2
    simp only [PyVal.list.sizeOf_spec]
    omega
  · obtain ⟨⟨a, b⟩, hmem⟩ := x
    have h := List.sizeOf_lt_of_mem hmem
    simp only [Prod.mk.sizeOf_spec] at h
    simp only [PyVal.dict.sizeOf_spec]
    omega

/-- `data.get(k)` on a record dict. -/
def getD0 (data : List (String × PyVal)) (k : String) : PyVal :=
  (lookupStr data k).getD .none

/-- One date field of the `for field in ['closedAt', 'publishedAt']` loop:
strings get `Z` replaced (falsy strings become `None`); truthy non-strings
would be `datetime` objects in Python, and on these parsed values the
`.isoformat()` attribute access raises. -/
def normDateField (data : List (String × PyVal)) (field : String) :
    PyM (List (String × PyVal)) :=
  match lookupStr data field with
  | some (.str s) =>
    .ok (setKey data field (if (PyVal.str s).truthy then .str (pyReplace s "Z" "+00:00") else .none))
  | some v => if v.truthy then .error .attributeError else .ok data
  | Option.none => .ok data

inductive NumType where
  | float
  | int
  deriving Repr, DecidableEq

/-- The `numeric_fields` table of `main.py:write_to_supabase`. -/
def numeric_fields : List (String × NumType) :=
  [("soldFor", .float), ("buyNowAmount", .float), ("preliminaryPrice", .float),
   ("winningBid", .float), ("highestBid", .float), ("odometerReading", .int),
   ("year", .int), ("batteryCapacity", .float), ("rangeCityWltpDrive", .int),
   ("rangeWltpDrive", .int), ("enginePowerHp", .int), ("enginePower", .int)]

/-- `field[0].lower() + field[1:]` — the "Convert to snake_case" line. -/
def lowerFirst (s : String) : String :=
  match s.toList with
  | [] => ""
  | c :: rest => String.mk (c.toLower :: rest)

def convertNum : NumType → PyVal → PyM PyVal
  | .float, v => pyFloat v
  | .int, v => pyInt v

/-- One pass of the numeric-coercion loop: look the computed field name up in
`db_data`; skip when absent or `None`; otherwise convert, degrading a
`ValueError`/`TypeError` to `None`. -/
def coerceStep (db : List (String × PyVal)) (f : String × NumType) :
    List (String × PyVal) :=
  match lookupStr db (lowerFirst f.1) with
  | some v =>
    if v.isNone then db
    else
      match convertNum f.2 v with
      | .ok w => setKey db (lowerFirst f.1) w
      | .error _ => setKey db (lowerFirst f.1) .none
  | Option.none => db

def coerceNumerics (db : List (String × PyVal)) : List (String × PyVal) :=
  numeric_fields.foldl coerceStep db

/-- The pure preparation part of `main.py:write_to_supabase`: date
normalization, `objectViewJson` serialization, the `db_data` dict, and the
numeric re-coercion loop. -/
def dbDataOf (data : List (String × PyVal)) : PyM (List (String × PyVal)) := do
  let data ← normDateField data "closedAt"
  let data ← normDateField data "publishedAt"
  let object_view_json :=
    let o := getD0 data "objectViewJson"
    if o.truthy then PyVal.str (jsonDumps o) else o
  let auction_id ←
    match lookupStr data "auctionId" with
    | some v => pure v
    | Option.none => Except.error PyErr.keyError
  let db_data : List (String × PyVal) :=
    [("auction_id", auction_id),
     ("closed_at", getD0 data "closedAt"),
     ("published_at", getD0 data "publishedAt"),
     ("sold_for", getD0 data "soldFor"),
     ("sell_method", getD0 data "sellMethod"),
     ("slug", getD0 data "slug"),
     ("auction_url", getD0 data "auctionUrl"),
     ("buy_now_amount", getD0 data "buyNowAmount"),
     ("buy_now_available", getD0 data "buyNowAvailable"),
     ("preliminary_price", getD0 data "preliminaryPrice"),
     ("is_sold_by_buy_now", getD0 data "isSoldByBuyNow"),
     ("winning_bid", getD0 data "winningBid"),
     ("reservation_price_reached", getD0 data "reservationPriceReached"),
     ("highest_bid", getD0 data "highestBid"),
     ("electric_type", getD0 data "electricType"),
     ("odometer_reading", getD0 data "odometerReading"),
     ("body", getD0 data "body"),
     ("brand", getD0 data "brand"),
     ("family_name", getD0 data "familyName"),
     ("registration_plate", getD0 data "registrationPlate"),
     ("model_name", getD0 data "modelName"),
     ("model_name_presentation", getD0 data "modelNamePresentation"),
     ("year", getD0 data "year"),
     ("facility_post_code", getD0 data "facilityPostCode"),
     ("facility_city", getD0 data "facilityCity"),
     ("fuel_code", getD0 data "fuelCode"),
     ("battery_capacity", getD0 data "batteryCapacity"),
     ("range_city_wltp_drive", getD0 data "rangeCityWltpDrive"),
     ("range_wltp_drive", getD0 data "rangeWltpDrive"),
     ("engine_power_hp", getD0 data "enginePowerHp"),
     ("engine_power", getD0 data "enginePower"),
     ("gearbox", getD0 data "gearbox"),
     ("main_image_url", getD0 data "mainImageUrl"),
     ("object_view_json", object_view_json),
     ("base_object_type", getD0 data "base_object_type")]
  pure (coerceNumerics db_data)

/-- SQL equality of an `auction_id` column value against the query parameter
(text against text; the ids this pipeline produces are strings). -/
def sqlEq (a b : PyVal) : Bool :=
  match a, b with
  | .str x, .str y => x == y
  | .int x, .int y => x == y
  | .float x, .float y => x == y
  | _, _ => false

abbrev DbState := List (List (String × PyVal))

inductive WriteOutcome where
  | skipped
  | failed
  | inserted
  | updated
  deriving Repr, DecidableEq

/-- `main.py:write_to_supabase` against the modelled store: the guard
returns early on missing data or falsy `auctionId`; an exception during
preparation is caught (no mutation); otherwise `SELECT` by `auction_id`
decides between `UPDATE` of all mapped columns and `INSERT`. -/
def write_to_supabase (data : List (String × PyVal)) (db : DbState) :
    DbState × WriteOutcome :=
  if data.isEmpty || !(getD0 data "auctionId").truthy then (db, .skipped)
  else
    match dbDataOf data with
    | .error _ => (db, .failed)
    | .ok db_data =>
      match db.find? (fun row =>
          sqlEq (getD0 row "auction_id") (getD0 data "auctionId")) with
      | some _ =>
        (db.map (fun row =>
          if sqlEq (getD0 row "auction_id") (getD0 data "auctionId") then db_data else row),
         .updated)
      | Option.none => (db ++ [db_data], .inserted)

/-! ### C5: the numeric re-coercion loop coerces (almost) nothing -/

/-- C5 failing input: `soldFor` arrives as the string `"100.5"`. -/
def c5data : List (String × PyVal) := [("auctionId", .str "1"), ("soldFor", .str "100.5")]

/-- C5: the claim is the code's evident intent but the code misses it: the
"snake_case" conversion `field[0].lower() + field[1:]` only lowercases the
first letter, so the computed name (`"soldFor"`) is not a key of the
snake_cased `db_data` and the conversion is skipped for every tabled field
whose name has a camel hump — a string `soldFor` reaches the row unchanged;
only `year` (all lowercase already) is actually coerced. -/
theorem C5_numeric_coercion_bug :
    lowerFirst "soldFor" = "soldFor" ∧
    (dbDataOf c5data).map (fun d => (lookupStr d "sold_for", lookupStr d "soldFor"))
      = .ok (some (.str "100.5"), Option.none) ∧
    (dbDataOf [("auctionId", .str "1"), ("year", .str "2020")]).map
        (fun d => lookupStr d "year")
      = .ok (some (.int 2020)) := ⟨rfl, rfl, rfl⟩

/-! ### C6/C7: reconciler upsert -/

/-- "This row belongs to auction `idStr`". -/
def rowKeyIs (idStr : String) (row : List (String × PyVal)) : Bool :=
  match lookupStr row "auction_id" with
  | some (.str t) => t == idStr
  | _ => false

theorem lookupStr_setKey_ne :
    ∀ (kvs : List (String × PyVal)) (k : String) (v : PyVal) (k' : String),
      k ≠ k' → lookupStr (setKey kvs k v) k' = lookupStr kvs k' := by
  intro kvs k v k' hne
  have hbf : (k == k') = false := beq_eq_false_iff_ne.mpr hne
  induction kvs with
  | nil => simp [setKey, lookupStr, List.find?, hbf]
  | cons p rest ih =>
    obtain ⟨k0, v0⟩ := p
    by_cases h0 : k0 == k
    · simp only [setKey, h0, if_pos]
      have hk0 : k0 = k := by simpa using h0
      subst hk0
      simp [lookupStr, List.find?, hbf]
    · simp only [setKey, h0, Bool.false_eq_true, if_false]
      by_cases h1 : k0 == k'
      · simp [lookupStr, List.find?, h1]
      · simp only [lookupStr, List.find?] at ih ⊢
        simp only [h1, Bool.false_eq_true, cond_false] at ih ⊢
        exact ih

theorem normDateField_lookup_ne (data : List (String × PyVal)) (f k : String)
    (hne : f ≠ k) (data' : List (String × PyVal))
    (h : normDateField data f = .ok data') :
    lookupStr data' k = lookupStr data k := by
  unfold normDateField at h
  cases hf : lookupStr data f with
  | none => rw [hf] at h; cases h; rfl
  | some v =>
    rw [hf] at h
    cases v with
    | str s =>
      simp only [Except.ok.injEq] at h
      subst h
      exact lookupStr_setKey_ne data f _ k hne
    | none => simp [PyVal.truthy] at h; subst h; rfl
    | bool b =>
      by_cases hb : (PyVal.bool b).truthy
      · simp [hb] at h
      · simp [hb] at h; subst h; rfl
    | int n =>
      by_cases hb : (PyVal.int n).truthy
      · simp [hb] at h
      · simp [hb] at h; subst h; rfl
    | float q =>
      by_cases hb : (PyVal.float q).truthy
      · simp [hb] at h
      · simp [hb] at h; subst h; rfl
    | list xs =>
      by_cases hb : (PyVal.list xs).truthy
      · simp [hb] at h
      · simp [hb] at h; subst h; rfl
    | dict kvs =>
      by_cases hb : (PyVal.dict kvs).truthy
      · simp [hb] at h
      · simp [hb] at h; subst h; rfl

theorem coerceStep_lookup_ne (db : List (String × PyVal)) (f : String × NumType)
    (k : String) (hne : lowerFirst f.1 ≠ k) :
    lookupStr (coerceStep db f) k = lookupStr db k := by
  unfold coerceStep
  cases hv : lookupStr db (lowerFirst f.1) with
  | none => rfl
  | some v =>
    by_cases hn : v.isNone
    · simp [hn]
    · simp only [hn, Bool.false_eq_true, if_false]
      cases convertNum f.2 v with
      | ok w => exact lookupStr_setKey_ne db _ w k hne
      | error e => exact lookupStr_setKey_ne db _ _ k hne

theorem coerceNumerics_lookup_auction_id (db : List (String × PyVal)) :
    lookupStr (coerceNumerics db) "auction_id" = lookupStr db "auction_id" := by
  have step : ∀ (fs : List (String × NumType)) (db : List (String × PyVal)),
      (∀ f ∈ fs, lowerFirst f.1 ≠ "auction_id") →
      lookupStr (fs.foldl coerceStep db) "auction_id" = lookupStr db "auction_id" := by
    intro fs
    induction fs with
    | nil => intro db _; rfl
    | cons f rest ih =>
      intro db h
      simp only [List.foldl_cons]
      rw [ih (coerceStep db f) (fun g hg => h g (List.mem_cons_of_mem _ hg)),
          coerceStep_lookup_ne db f _ (h f (List.mem_cons_self _ _))]
  exact step numeric_fields db (by decide)

theorem dbDataOf_auction_id (data dbd : List (String × PyVal)) (v : PyVal)
    (hid : lookupStr data "auctionId" = some v)
    (h : dbDataOf data = .ok dbd) :
    lookupStr dbd "auction_id" = some v := by
  unfold dbDataOf at h
  obtain ⟨d1, hd1, h1⟩ := except_bind_ok h
  obtain ⟨d2, hd2, h2⟩ := except_bind_ok h1
  have hid1 : lookupStr d1 "auctionId" = some v := by
    rw [normDateField_lookup_ne data "closedAt" "auctionId" (by decide) d1 hd1, hid]
  have hid2 : lookupStr d2 "auctionId" = some v := by
    rw [normDateField_lookup_ne d1 "publishedAt" "auctionId" (by decide) d2 hd2, hid1]
  rw [hid2] at h2
  simp only [pure, Except.pure, Except.ok.injEq] at h2
  obtain ⟨aid, haid, h3⟩ := except_bind_ok h2
  simp only [pure, Except.pure, Except.ok.injEq] at haid h3
  subst h3
  rw [coerceNumerics_lookup_auction_id]
  cases haid
  rfl

theorem rowKeyIs_eq_sqlEq (idStr : String) (row : List (String × PyVal)) :
    rowKeyIs idStr row = sqlEq (getD0 row "auction_id") (.str idStr) := by
  unfold rowKeyIs getD0
  cases h : lookupStr row "auction_id" with
  | none => rfl
  | some v => cases v <;> rfl

theorem countP_map_replace {α : Type} (p : α → Bool) (new : α) (hnew : p new = true) :
    ∀ l : List α, ((l.map (fun r => if p r then new else r)).countP p) = l.countP p := by
  intro l
  induction l with
  | nil => rfl
  | cons r rest ih =>
    by_cases hr : p r
    · simp [List.countP_cons, hr, hnew, ih]
    · simp [List.countP_cons, hr, ih]

/-- C7: a record that is empty or has a falsy (in particular null or absent)
`auctionId` makes `write_to_supabase` a pure no-op: it returns early with
only a warning, performing no database mutation and raising nothing. -/
theorem C7_null_auctionId_noop (data : List (String × PyVal)) (db : DbState)
    (h : data = [] ∨ (getD0 data "auctionId").truthy = false) :
    write_to_supabase data db = (db, .skipped) := by
  rcases h with h | h
  · subst h; rfl
  · unfold write_to_supabase
    simp [h]

/-- C7 witness: a record whose `auctionId` is null. -/
theorem C7_null_auctionId_noop_witness :
    write_to_supabase [("auctionId", PyVal.none)] [] = ([], .skipped) :=
  C7_null_auctionId_noop [("auctionId", PyVal.none)] [] (Or.inr rfl)

theorem str_truthy_of_ne (s : String) (h : s ≠ "") : (PyVal.str s).truthy = true := by
  simp only [PyVal.truthy, Bool.not_eq_true']
  cases he : s.isEmpty
  · rfl
  · exact absurd ((String.isEmpty_iff s).mp he) h

/-- C6: upsert is idempotent on `auctionId`: for a record carrying a
non-null string id whose preparation raises no exception, against a store
with no row for that id, the first call inserts and the second call updates
(never inserts again), leaving exactly one row for the id. -/
theorem C6_upsert_idempotent (data : List (String × PyVal)) (db : DbState)
    (idStr : String)
    (hid : lookupStr data "auctionId" = some (.str idStr))
    (hids : idStr ≠ "")
    (hprep : (dbDataOf data).isOk = true)
    (hnew : ∀ row ∈ db, rowKeyIs idStr row = false) :
    (write_to_supabase data db).2 = .inserted ∧
    (write_to_supabase data (write_to_supabase data db).1).2 = .updated ∧
    (write_to_supabase data (write_to_supabase data db).1).1.countP (rowKeyIs idStr)
      = 1 := by
  have hidv : getD0 data "auctionId" = .str idStr := by simp [getD0, hid]
  have hdata_ne : data.isEmpty = false := by
    cases data with
    | nil => simp [lookupStr, List.find?] at hid
    | cons p rest => rfl
  have hguard : (getD0 data "auctionId").truthy = true := by
    rw [hidv]; exact str_truthy_of_ne idStr hids
  obtain ⟨dbd, hdbd⟩ : ∃ d, dbDataOf data = .ok d := by
    cases h : dbDataOf data with
    | error e => rw [h] at hprep; simp [Except.isOk, Except.toBool] at hprep
    | ok d => exact ⟨d, rfl⟩
  have hkey : lookupStr dbd "auction_id" = some (.str idStr) :=
    dbDataOf_auction_id data dbd _ hid hdbd
  have hkeyrow : rowKeyIs idStr dbd = true := by
    unfold rowKeyIs
    rw [hkey]
    simp
  have hpred : (fun row => sqlEq (getD0 row "auction_id") (PyVal.str idStr))
      = rowKeyIs idStr := by
    funext row
    rw [rowKeyIs_eq_sqlEq]
  have hfind1 : db.find? (fun row => sqlEq (getD0 row "auction_id") (.str idStr))
      = Option.none := by
    rw [hpred, List.find?_eq_none]
    intro row hr
    simp [hnew row hr]
  have hstr : (PyVal.str idStr).truthy = true := str_truthy_of_ne idStr hids
  have happne : (db ++ [dbd]).isEmpty = false := by cases db <;> rfl
  have hw1 : write_to_supabase data db = (db ++ [dbd], .inserted) := by
    unfold write_to_supabase
    rw [hdbd, hidv, hfind1]
    simp [hdata_ne, hstr]
  have hfind2 : (db ++ [dbd]).find?
      (fun row => sqlEq (getD0 row "auction_id") (.str idStr)) = some dbd := by
    rw [hpred] at hfind1 ⊢
    rw [List.find?_append, hfind1]
    simp [List.find?, hkeyrow]
  have hw2 : write_to_supabase data (db ++ [dbd])
      = ((db ++ [dbd]).map
          (fun row => if sqlEq (getD0 row "auction_id") (.str idStr) then dbd else row),
         .updated) := by
    unfold write_to_supabase
    rw [hdbd, hidv, hfind2]
    simp [hdata_ne, hstr]
  refine ⟨by rw [hw1], ?_, ?_⟩
  · rw [hw1]
    simp only []
    rw [hw2]
  · rw [hw1]
    simp only []
    rw [hw2]
    simp only []
    have hmapeq : ((db ++ [dbd]).map
        (fun row => if sqlEq (getD0 row "auction_id") (.str idStr) then dbd else row))
        = ((db ++ [dbd]).map (fun row => if rowKeyIs idStr row then dbd else row)) := by
      apply List.map_congr_left
      intro row _
      rw [rowKeyIs_eq_sqlEq]
    rw [hmapeq, countP_map_replace (rowKeyIs idStr) dbd hkeyrow]
    rw [List.countP_append]
    have hdb0 : db.countP (rowKeyIs idStr) = 0 :=
      List.countP_eq_zero.mpr (fun row hr => by simp [hnew row hr])
    rw [hdb0]
    simp [List.countP_cons, hkeyrow]

/-- C6 witness: a fresh record against an empty store. -/
theorem C6_upsert_idempotent_witness :
    (write_to_supabase [("auctionId", PyVal.str "42")] []).2 = .inserted ∧
    (write_to_supabase [("auctionId", PyVal.str "42")]
      (write_to_supabase [("auctionId", PyVal.str "42")] []).1).2 = .updated ∧
    (write_to_supabase [("auctionId", PyVal.str "42")]
      (write_to_supabase [("auctionId", PyVal.str "42")] []).1).1.countP
        (rowKeyIs "42") = 1 :=
  C6_upsert_idempotent [("auctionId", PyVal.str "42")] [] "42" rfl (by decide) rfl
    (by intro row hr; cases hr)

/-! ### C3: totality of the field mapper

`main.py:extract_fields` never raises provided every node it dereferences
is, *when present and truthy*, of the type the code expects (mappings along
the object paths, lists with mapping heads for the two fuels lists, strings
for `auctionUrl`, `modelName` and `brand`); missing, null or otherwise falsy
nodes are all absorbed by the `or {}` / `or []` / `or ""` defaults.  The
predicate `wellShaped` states exactly these conditions.  (Truthy nodes of
the wrong type do raise — see the counterexample — so the claim's "for any
shape of input" is too strong.) -/

/-- The raw lookup `v.get(k)` as an `Option` (for a dict `v`). -/
def lk (v : PyVal) (k : String) : Option PyVal :=
  match v with
  | .dict kvs => lookupStr kvs k
  | _ => Option.none

/-- Total mirror of `v.get(k, d)` for dict `v`. -/
def dGet (v : PyVal) (k : String) (d : PyVal) : PyVal :=
  match v with
  | .dict kvs => (lookupStr kvs k).getD d
  | _ => d

/-- Total mirror of `v.get(k, {}) or {}`. -/
def gd (v : PyVal) (k : String) : PyVal := pyOr (dGet v k (.dict [])) (.dict [])

/-- Total mirror of `v.get(k, []) or []`. -/
def gl (v : PyVal) (k : String) : PyVal := pyOr (dGet v k (.list [])) (.list [])

def headD : PyVal → PyVal
  | .list (x :: _) => x
  | _ => .none

/-- A value fed to `... or {}` then dereferenced: absent, falsy, or a dict. -/
def valDictOk : Option PyVal → Bool
  | Option.none => true
  | some w => !w.truthy || w.isDict

def valListOk : Option PyVal → Bool
  | Option.none => true
  | some w => !w.truthy || w.isList

def valStrOk : Option PyVal → Bool
  | Option.none => true
  | some w => !w.truthy || w.isStr

/-- A value dereferenced *without* an `or {}` (the re-read of `baseObject`
inside the fuels branch): absent, or a dict — null would raise here. -/
def rawDictOk : Option PyVal → Bool
  | Option.none => true
  | some w => w.isDict

def headDictOk : PyVal → Bool
  | .list (x :: _) => x.isDict
  | _ => true

def wellShapedItem (item : PyVal) : Bool :=
  item.isDict
  && valDictOk (lk item "processObject")
  && valDictOk (lk (gd item "processObject") "baseObject")
  && valDictOk (lk (gd item "processObject") "locationInfo")
  && valDictOk (lk (gd (gd item "processObject") "locationInfo") "facility")
  && valDictOk (lk (gd item "processObject") "properties")
  && valListOk (lk (gd (gd item "processObject") "properties") "fuels")
  && valDictOk (lk item "activeAuction")
  && valDictOk (lk item "winningBid")
  && valDictOk (lk (gd item "activeAuction") "highestBid")
  && valStrOk (lk item "auctionUrl")
  && valStrOk (lk (gd (gd item "processObject") "baseObject") "modelName")
  && valStrOk (lk (gd (gd item "processObject") "properties") "brand")
  && headDictOk (gl (gd (gd item "processObject") "properties") "fuels")
  && (!(gl (gd (gd item "processObject") "properties") "fuels").truthy
      || (rawDictOk (lk (gd item "processObject") "baseObject")
          && valDictOk (lk (dGet (gd item "processObject") "baseObject" (.dict []))
               "authorityRegisterInformation")
          && valDictOk (lk (gd (dGet (gd item "processObject") "baseObject" (.dict []))
               "authorityRegisterInformation") "generalTechSpecification")
          && valListOk (lk (gd (gd (dGet (gd item "processObject") "baseObject" (.dict []))
               "authorityRegisterInformation") "generalTechSpecification") "fuels")
          && headDictOk (gl (gd (gd (dGet (gd item "processObject") "baseObject" (.dict []))
               "authorityRegisterInformation") "generalTechSpecification") "fuels")))

def listOfDict : PyVal → List (String × PyVal)
  | .dict kvs => kvs
  | _ => []

def wellShapedEntries : List (String × PyVal) → Bool
  | [] => true
  | (_, v) :: rest => if v.truthy then wellShapedItem v else wellShapedEntries rest

def wellShaped (store : PyVal) : Bool :=
  store.isDict
  && rawDictOk (lk store "objectView")
  && rawDictOk (lk (dGet store "objectView" (.dict [])) "storeObjects")
  && wellShapedEntries
       (listOfDict (dGet (dGet store "objectView" (.dict [])) "storeObjects" (.dict [])))

/-! Conditional evaluation lemmas used to walk `coreMain` under the
well-shapedness conditions. -/

theorem ok_bind {α β : Type} (a : α) (f : α → PyM β) :
    ((Except.ok a : PyM α) >>= f) = f a := rfl

theorem isOk_ok {α : Type} (a : α) : (Except.ok a : PyM α).isOk = true := rfl

theorem isOk_pure {α : Type} (a : α) : (pure a : PyM α).isOk = true := rfl

theorem isOk_exists {α : Type} {x : PyM α} (h : x.isOk = true) : ∃ a, x = .ok a := by
  cases x with
  | ok a => exact ⟨a, rfl⟩
  | error e => simp [Except.isOk, Except.toBool] at h

theorem dictGetOk (v : PyVal) (k : String) (d : PyVal) (hv : v.isDict = true) :
    pyGetD v k d = .ok (dGet v k d) := by
  cases v <;> simp_all [PyVal.isDict, pyGetD, dGet]

theorem itemsOk (v : PyVal) (hv : v.isDict = true) : pyItems v = .ok (listOfDict v) := by
  cases v <;> simp_all [PyVal.isDict, pyItems, listOfDict]

theorem getOrDictOk (v : PyVal) (k : String) (hv : v.isDict = true) :
    getOrDict v k = .ok (pyOr (dGet v k (.dict [])) (.dict [])) := by
  unfold getOrDict
  rw [dictGetOk v k _ hv, ok_bind]
  rfl

theorem getOrListOk (v : PyVal) (k : String) (hv : v.isDict = true) :
    getOrList v k = .ok (pyOr (dGet v k (.list [])) (.list [])) := by
  unfold getOrList
  rw [dictGetOk v k _ hv, ok_bind]
  rfl

theorem orDict_isDict (u : PyVal) (hu : (!u.truthy || u.isDict) = true) :
    (pyOr u (.dict [])).isDict = true := by
  unfold pyOr
  cases ht : u.truthy <;> simp_all [PyVal.isDict]

theorem orList_isList (u : PyVal) (hu : (!u.truthy || u.isList) = true) :
    (pyOr u (.list [])).isList = true := by
  unfold pyOr
  cases ht : u.truthy <;> simp_all [PyVal.isList]

theorem dGet_dictOk (v : PyVal) (k : String) (hv : v.isDict = true)
    (hk : valDictOk (lk v k) = true) :
    (!(dGet v k (.dict [])).truthy || (dGet v k (.dict [])).isDict) = true := by
  cases v with
  | dict kvs =>
    simp only [dGet, lk] at hk ⊢
    cases hl : lookupStr kvs k with
    | none => simp [Option.getD, PyVal.truthy]
    | some w => rw [hl] at hk; simpa [valDictOk, Option.getD] using hk
  | _ => simp_all [PyVal.isDict]

theorem dGet_listOk (v : PyVal) (k : String) (hv : v.isDict = true)
    (hk : valListOk (lk v k) = true) :
    (!(dGet v k (.list [])).truthy || (dGet v k (.list [])).isList) = true := by
  cases v with
  | dict kvs =>
    simp only [dGet, lk] at hk ⊢
    cases hl : lookupStr kvs k with
    | none => simp [Option.getD, PyVal.truthy]
    | some w => rw [hl] at hk; simpa [valListOk, Option.getD] using hk
  | _ => simp_all [PyVal.isDict]

theorem dGetRaw_isDict (v : PyVal) (k : String) (hv : v.isDict = true)
    (hk : rawDictOk (lk v k) = true) :
    (dGet v k (.dict [])).isDict = true := by
  cases v with
  | dict kvs =>
    simp only [dGet, lk] at hk ⊢
    cases hl : lookupStr kvs k with
    | none => simp [Option.getD, PyVal.isDict]
    | some w => rw [hl] at hk; simpa [rawDictOk, Option.getD] using hk
  | _ => simp_all [PyVal.isDict]

theorem orStr_strOk (v : PyVal) (k : String) (hv : v.isDict = true)
    (hk : valStrOk (lk v k) = true) :
    (!(pyOr (dGet v k (.str "")) (.str "")).truthy
      || (pyOr (dGet v k (.str "")) (.str "")).isStr) = true := by
  cases v with
  | dict kvs =>
    simp only [dGet, lk, pyOr] at hk ⊢
    cases hl : lookupStr kvs k with
    | none => simp [Option.getD, PyVal.truthy, PyVal.isStr]
    | some w =>
      rw [hl] at hk
      simp only [valStrOk] at hk
      simp only [Option.getD]
      cases ht : w.truthy <;> simp_all [PyVal.isStr, PyVal.truthy]
  | _ => simp_all [PyVal.isDict]

theorem orNone_strOk (v : PyVal) (k : String) (hv : v.isDict = true)
    (hk : valStrOk (lk v k) = true) :
    (!(orNone (dGet v k PyVal.none)).truthy || (orNone (dGet v k PyVal.none)).isStr)
      = true := by
  cases v with
  | dict kvs =>
    simp only [dGet, lk, orNone, pyOr] at hk ⊢
    cases hl : lookupStr kvs k with
    | none => simp [Option.getD, PyVal.truthy]
    | some w =>
      rw [hl] at hk
      simp only [valStrOk] at hk
      simp only [Option.getD]
      cases ht : w.truthy <;> simp_all [PyVal.truthy]
  | _ => simp_all [PyVal.isDict]

theorem ifStr_pure (w : PyVal) (f : String → PyVal)
    (hw : (!w.truthy || w.isStr) = true) :
    (if w.truthy = true then pyAsStr w >>= (fun u => pure (f u)) else pure PyVal.none)
      = .ok (if w.truthy = true then f (strOrEmpty w) else PyVal.none) := by
  cases w <;> cases ht : PyVal.truthy _ <;>
    simp_all [pyAsStr, strOrEmpty, PyVal.truthy, PyVal.isStr, pure, Except.pure,
      Bind.bind, Except.bind]

theorem regexBatteryVal_ok (w : PyVal) (hw : (!w.truthy || w.isStr) = true) :
    regexBatteryVal w
      = .ok (if w.truthy = true then regexCapacityVal (strOrEmpty w) else PyVal.none) := by
  unfold regexBatteryVal
  rw [ifStr_pure w _ hw]
  rfl

theorem listLenGuard (w : PyVal) (hw : w.isList = true) :
    (if w.truthy = true then pyLen w >>= (fun n => pure (decide (n > 0))) else pure false)
      = .ok w.truthy := by
  cases w with
  | list xs =>
    cases xs with
    | nil => simp [PyVal.truthy]; rfl
    | cons x rest =>
      simp [PyVal.truthy, pyLen, Bind.bind, Except.bind, pure, Except.pure]
  | _ => simp_all [PyVal.isList]

theorem index0_ok (w : PyVal) (hw : w.isList = true) (ht : w.truthy = true) :
    pyIndex0 w = .ok (headD w) := by
  cases w with
  | list xs =>
    cases xs with
    | nil => simp [PyVal.truthy] at ht
    | cons x rest => rfl
  | _ => simp_all [PyVal.isList]

theorem headD_isDict (w : PyVal) (hw : headDictOk w = true) (hl : w.isList = true) :
    (headD w).isDict = true ∨ w.truthy = false := by
  cases w with
  | list xs =>
    cases xs with
    | nil => right; rfl
    | cons x rest => left; simpa [headDictOk, headD] using hw
  | _ => simp_all [PyVal.isList]

theorem bind_pure_pm {α β : Type} (a : α) (f : α → PyM β) :
    ((pure a : PyM α) >>= f) = f a := rfl

theorem isOk_ite {α : Type} (c : Prop) [Decidable c] (x y : PyM α) :
    (if c then x else y).isOk = if c then x.isOk else y.isOk := by
  by_cases hc : c <;> simp [hc]

theorem strOk_cases (w : PyVal) (hw : (!w.truthy || w.isStr) = true) :
    (∃ s, w = .str s) ∨ w.truthy = false := by
  by_cases hw2 : w.truthy = true
  · rw [hw2] at hw
    simp only [Bool.not_true, Bool.false_or] at hw
    refine Or.inl ?_
    cases w <;> first | exact ⟨_, rfl⟩ | simp [PyVal.isStr] at hw
  · rw [Bool.not_eq_true] at hw2
    exact Or.inr hw2

theorem truthyList_cons (w : PyVal) (hl : w.isList = true) (ht : w.truthy = true) :
    ∃ x xs, w = .list (x :: xs) := by
  cases w with
  | list l =>
    cases l with
    | nil => simp [PyVal.truthy] at ht
    | cons x xs => exact ⟨x, xs, rfl⟩
  | _ => simp [PyVal.isList] at hl

theorem falsyList_nil (w : PyVal) (hl : w.isList = true) (ht : w.truthy = false) :
    w = .list [] := by
  cases w with
  | list l =>
    cases l with
    | nil => rfl
    | cons x xs => simp [PyVal.truthy] at ht
  | _ => simp [PyVal.isList] at hl

theorem decide_len_cons (x : PyVal) (xs : List PyVal) :
    decide ((((x :: xs).length : Nat) : Int) > 0) = true := by
  rw [decide_eq_true_eq]
  simp only [List.length_cons]
  omega

theorem decide_len_nil :
    decide (((([] : List PyVal).length : Nat) : Int) > 0) = false := by
  rfl

theorem truthy_cons (x : PyVal) (xs : List PyVal) :
    (PyVal.list (x :: xs)).truthy = true := rfl

theorem truthy_nil : (PyVal.list []).truthy = false := rfl

set_option maxHeartbeats 2000000 in
theorem coreMain_ok (item : PyVal) (h : wellShapedItem item = true) :
    (coreMain item).isOk = true := by
  unfold wellShapedItem at h
  simp only [Bool.and_eq_true] at h
  obtain ⟨⟨⟨⟨⟨⟨⟨⟨⟨⟨⟨⟨⟨⟨h0, h1⟩, h2⟩, h3⟩, h4⟩, h5⟩, h6⟩, h7⟩, h8⟩, h9⟩,
    h10⟩, h11⟩, h12⟩, h13⟩, h14⟩ := h
  have hpoD : (gd item "processObject").isDict = true :=
    orDict_isDict _ (dGet_dictOk item "processObject" h0 h1)
  have hbaseD : (gd (gd item "processObject") "baseObject").isDict = true :=
    orDict_isDict _ (dGet_dictOk _ _ hpoD h2)
  have hlocD : (gd (gd item "processObject") "locationInfo").isDict = true :=
    orDict_isDict _ (dGet_dictOk _ _ hpoD h3)
  have hfacD :
      (gd (gd (gd item "processObject") "locationInfo") "facility").isDict = true :=
    orDict_isDict _ (dGet_dictOk _ _ hlocD h4)
  have hpropD : (gd (gd item "processObject") "properties").isDict = true :=
    orDict_isDict _ (dGet_dictOk _ _ hpoD h5)
  have hfuL : (gl (gd (gd item "processObject") "properties") "fuels").isList = true :=
    orList_isList _ (dGet_listOk _ _ hpropD h6)
  have hactD : (gd item "activeAuction").isDict = true :=
    orDict_isDict _ (dGet_dictOk item "activeAuction" h0 h7)
  have hwinD : (gd item "winningBid").isDict = true :=
    orDict_isDict _ (dGet_dictOk item "winningBid" h0 h8)
  have hhbD : (gd (gd item "activeAuction") "highestBid").isDict = true :=
    orDict_isDict _ (dGet_dictOk _ _ hactD h9)
  have hurlS := orStr_strOk item "auctionUrl" h0 h10
  have hmnS := orStr_strOk (gd (gd item "processObject") "baseObject") "modelName" hbaseD h11
  have hbrS := orNone_strOk (gd (gd item "processObject") "properties") "brand" hpropD h12
  by_cases hfu : (gl (gd (gd item "processObject") "properties") "fuels").truthy = true
  · simp only [hfu, Bool.not_true, Bool.false_or, Bool.and_eq_true] at h14
    obtain ⟨⟨⟨⟨hb1, hb2⟩, hb3⟩, hb4⟩, hb5⟩ := h14
    have hfd : (headD (gl (gd (gd item "processObject") "properties") "fuels")).isDict
        = true := by
      rcases headD_isDict _ h13 hfuL with hx | hx
      · exact hx
      · rw [hfu] at hx; cases hx
    have hb2D : (dGet (gd item "processObject") "baseObject" (.dict [])).isDict = true :=
      dGetRaw_isDict _ _ hpoD hb1
    have hauthD : (gd (dGet (gd item "processObject") "baseObject" (.dict []))
        "authorityRegisterInformation").isDict = true :=
      orDict_isDict _ (dGet_dictOk _ _ hb2D hb2)
    have htechD : (gd (gd (dGet (gd item "processObject") "baseObject" (.dict []))
        "authorityRegisterInformation") "generalTechSpecification").isDict = true :=
      orDict_isDict _ (dGet_dictOk _ _ hauthD hb3)
    have htfL : (gl (gd (gd (dGet (gd item "processObject") "baseObject" (.dict []))
        "authorityRegisterInformation") "generalTechSpecification") "fuels").isList
        = true :=
      orList_isList _ (dGet_listOk _ _ htechD hb4)
    by_cases htf : (gl (gd (gd (dGet (gd item "processObject") "baseObject" (.dict []))
        "authorityRegisterInformation") "generalTechSpecification") "fuels").truthy = true
    · have htfd : (headD (gl (gd (gd (dGet (gd item "processObject") "baseObject"
          (.dict [])) "authorityRegisterInformation") "generalTechSpecification")
          "fuels")).isDict = true := by
        rcases headD_isDict _ hb5 htfL with hx | hx
        · exact hx
        · rw [htf] at hx; cases hx
      simp only [gd, gl] at hpoD hbaseD hlocD hfacD hpropD hfuL hactD hwinD hhbD
      simp only [gd, gl] at hurlS hmnS hbrS hfu hfd hb2D hauthD htechD htfL htf htfd
      obtain ⟨fx, fxs, hxs⟩ := truthyList_cons _ hfuL hfu
      obtain ⟨tx, txs, htxs⟩ := truthyList_cons _ htfL htf
      simp only [coreMain, getOrDictOk, getOrListOk, dictGetOk, ok_bind, isOk_ok,
        isOk_pure, ifStr_pure, regexBatteryVal_ok, listLenGuard, index0_ok, h0, hpoD,
        hbaseD, hlocD, hfacD, hpropD, hfuL, hactD, hwinD, hhbD, hurlS, hmnS, hbrS,
        hfu, hfd, hb2D, hauthD, htechD, htfL, htf, htfd, eq_self_iff_true, ite_true,
        ite_false, if_true, if_false, Bool.false_eq_true]
      rcases strOk_cases _ hurlS with ⟨su, hsu⟩ | hsu <;>
        rcases strOk_cases _ hmnS with ⟨sm, hsm⟩ | hsm <;>
        rcases strOk_cases _ hbrS with ⟨sb, hsb⟩ | hsb <;>
        simp only [hsu, hsm, hsb, hxs, htxs, pyAsStr, pyLen, headD, ok_bind,
          bind_pure_pm, isOk_pure, isOk_ok, isOk_ite, ite_self, decide_len_cons,
          decide_len_nil, truthy_cons, truthy_nil, eq_self_iff_true, ite_true,
          ite_false, if_true, if_false, Bool.false_eq_true]
    · rw [Bool.not_eq_true] at htf
      simp only [gd, gl] at hpoD hbaseD hlocD hfacD hpropD hfuL hactD hwinD hhbD
      simp only [gd, gl] at hurlS hmnS hbrS hfu hfd hb2D hauthD htechD htfL htf
      obtain ⟨fx, fxs, hxs⟩ := truthyList_cons _ hfuL hfu
      have htxs := falsyList_nil _ htfL htf
      simp only [coreMain, getOrDictOk, getOrListOk, dictGetOk, ok_bind, isOk_ok,
        isOk_pure, ifStr_pure, regexBatteryVal_ok, listLenGuard, index0_ok, h0, hpoD,
        hbaseD, hlocD, hfacD, hpropD, hfuL, hactD, hwinD, hhbD, hurlS, hmnS, hbrS,
        hfu, hfd, hb2D, hauthD, htechD, htfL, htf, eq_self_iff_true, ite_true,
        ite_false, if_true, if_false, Bool.false_eq_true]
      rcases strOk_cases _ hurlS with ⟨su, hsu⟩ | hsu <;>
        rcases strOk_cases _ hmnS with ⟨sm, hsm⟩ | hsm <;>
        rcases strOk_cases _ hbrS with ⟨sb, hsb⟩ | hsb <;>
        simp only [hsu, hsm, hsb, hxs, htxs, pyAsStr, pyLen, headD, ok_bind,
          bind_pure_pm, isOk_pure, isOk_ok, isOk_ite, ite_self, decide_len_cons,
          decide_len_nil, truthy_cons, truthy_nil, eq_self_iff_true, ite_true,
          ite_false, if_true, if_false, Bool.false_eq_true]
  · rw [Bool.not_eq_true] at hfu
    simp only [gd, gl] at hpoD hbaseD hlocD hfacD hpropD hfuL hactD hwinD hhbD
    simp only [gd, gl] at hurlS hmnS hbrS hfu
    have hxs := falsyList_nil _ hfuL hfu
    simp only [coreMain, getOrDictOk, getOrListOk, dictGetOk, ok_bind, isOk_ok,
      isOk_pure, ifStr_pure, regexBatteryVal_ok, listLenGuard, index0_ok, h0, hpoD,
      hbaseD, hlocD, hfacD, hpropD, hfuL, hactD, hwinD, hhbD, hurlS, hmnS, hbrS,
      hfu, eq_self_iff_true, ite_true, ite_false, if_true, if_false,
      Bool.false_eq_true]
    rcases strOk_cases _ hurlS with ⟨su, hsu⟩ | hsu <;>
      rcases strOk_cases _ hmnS with ⟨sm, hsm⟩ | hsm <;>
      rcases strOk_cases _ hbrS with ⟨sb, hsb⟩ | hsb <;>
      simp only [hsu, hsm, hsb, hxs, pyAsStr, pyLen, headD, ok_bind,
        bind_pure_pm, isOk_pure, isOk_ok, isOk_ite, ite_self, decide_len_cons,
        decide_len_nil, truthy_cons, truthy_nil, eq_self_iff_true, ite_true,
        ite_false, if_true, if_false, Bool.false_eq_true]

/-- The shared loop succeeds on a well-shaped entry list. -/
theorem extractLoop_wellShaped_ok (build : Fields → PyVal → List (String × PyVal))
    (store : PyVal) (hs : store.isDict = true) :
    ∀ entries : List (String × PyVal), wellShapedEntries entries = true →
      (extractLoop build store entries).isOk = true := by
  intro entries
  induction entries with
  | nil => intro _; rfl
  | cons e rest ih =>
    intro he
    obtain ⟨k, item⟩ := e
    by_cases ht : item.truthy = true
    · simp only [wellShapedEntries, ht, eq_self_iff_true, ite_true, if_true] at he
      simp only [extractLoop, ht, eq_self_iff_true, ite_true, if_true]
      obtain ⟨c, hc⟩ := isOk_exists (coreMain_ok item he)
      rw [hc, ok_bind, dictGetOk store "objectView" _ hs, ok_bind]
      exact isOk_pure _
    · rw [Bool.not_eq_true] at ht
      simp only [wellShapedEntries, ht, Bool.false_eq_true, ite_false, if_false] at he
      simp only [extractLoop, ht, Bool.false_eq_true, ite_false, if_false]
      exact ih he

/-- C3: corrected — the dereference chain of `main.py:extract_fields` is total
on every *well-shaped* store: the store, and `objectView` and `storeObjects`
when present, are dicts; in the first truthy entry each `or {}`/`or []`
defaulted spot is absent, falsy, or of the expected dict/list type, the string
spots (`auctionUrl`, `modelName`, `brand`) are absent, falsy, or strings, a
non-empty `fuels` list has a dict head, and — because the fuels branch
re-reads `baseObject` *without* an `or {}`, so a present null raises there —
when `fuels` is truthy `baseObject` is absent or a dict and the tech-spec
chain below it is likewise absent, falsy, or well-typed with a dict head.
The empty-`fuels` case is included; the claim's "for every parsed JSON tree"
is refuted by `C3_defensive_defaulting_cex`. -/
theorem C3_defensive_defaulting (store : PyVal) (h : wellShaped store = true) :
    (MainPy.extract_fields store).isOk = true := by
  unfold wellShaped at h
  simp only [Bool.and_eq_true] at h
  obtain ⟨⟨⟨hs, hov⟩, hso⟩, he⟩ := h
  have hovD : (dGet store "objectView" (.dict [])).isDict = true :=
    dGetRaw_isDict _ _ hs hov
  have hsoD :
      (dGet (dGet store "objectView" (.dict [])) "storeObjects" (.dict [])).isDict
        = true :=
    dGetRaw_isDict _ _ hovD hso
  unfold MainPy.extract_fields
  rw [dictGetOk store "objectView" _ hs, ok_bind,
    dictGetOk _ "storeObjects" _ hovD, ok_bind, itemsOk _ hsoD, ok_bind]
  exact extractLoop_wellShaped_ok _ _ hs _ he

/-- A well-shaped store with an empty `fuels` list: the truthy entry carries a
`processObject` whose `properties` hold `fuels = []`. -/
def c3store : PyVal :=
  .dict [("objectView", .dict [("storeObjects", .dict [("1002", .dict
    [("processObject", .dict [("properties", .dict [("fuels", .list [])])])]
  )])])]

/-- C3 witness: `c3store` is well-shaped (with an empty `fuels` list) and
`main.py:extract_fields` completes on it without an exception. -/
theorem C3_defensive_defaulting_witness :
    wellShaped c3store = true ∧ (MainPy.extract_fields c3store).isOk = true :=
  ⟨by decide, C3_defensive_defaulting c3store (by decide)⟩

/-- A store whose truthy entry has a truthy non-dict `processObject`: `"x" or {}`
keeps `"x"`, and `"x".get("baseObject")` raises `AttributeError`. -/
def c3badStore : PyVal :=
  .dict [("objectView", .dict [("storeObjects", .dict [("1002", .dict
    [("processObject", .str "x")])])])]

/-- A well-typed store with an empty `fuels` list, fed to
`car_crawler.py:extract_fields`. -/
def c3emptyFuels : PyVal :=
  .dict [("objectView", .dict [("storeObjects", .dict [("1002", .dict
    [("processObject", .dict [("properties", .dict [("fuels", .list [])])])]
  )])])]

/-- C3 counterexample: the mapping does not complete on every parsed JSON tree.
In `main.py` a truthy non-dict at a defaulted spot (`processObject = "x"`)
raises `AttributeError` (`or {}` only replaces *falsy* values), and in
`car_crawler.py` an empty `fuels` list leaves `engine_power_hp`/`engine_power`
unassigned, so building the record raises `UnboundLocalError`. -/
theorem C3_defensive_defaulting_cex :
    MainPy.extract_fields c3badStore = .error .attributeError ∧
    CrawlerPy.extract_fields c3emptyFuels = .error .nameError :=
  ⟨rfl, rfl⟩

end CarCrawler
